import Mathlib

/-!
# hpx::detail::shared_mutex

A shallow embedding of `libs/core/synchronization/include/hpx/synchronization/shared_mutex.hpp`.

Every member function of the class takes `state_change` for its whole body, so
a member function is one atomic transformation of `state_data`; the only places
where the internal lock is given up inside a body are the `wait` calls of the
four blocking functions.  A blocking function is therefore modelled by one pass
through its `while` test: it either leaves the loop and finishes (`acquired`)
or reaches `wait` (`suspended`), in both cases with the state it leaves behind.
A woken thread runs the same test again.

`shared_count` has the C++ type `unsigned`: `++` and `--` wrap around at
`UINT_MOD`.
-/

namespace shared_mutex

/-- Number of values of the C++ type `unsigned` (32 bits). -/
def UINT_MOD : Nat := 4294967296

/-- The largest value of the C++ type `unsigned`. -/
def UINT_MAX : Nat := 4294967295

/-- The operator `++` on an `unsigned`: the next value, and `0` after the
largest one (`incr_eq_mod`: addition of one modulo `UINT_MOD`). -/
def incr (c : Nat) : Nat := if c = UINT_MAX then 0 else c + 1

/-- The operator `--` on an `unsigned`: the previous value, and the largest
one before `0` (`decr_eq_mod`: subtraction of one modulo `UINT_MOD`). -/
def decr (c : Nat) : Nat := if c = 0 then UINT_MAX else c - 1

/-- The record `state_data`. -/
structure state_data where
  shared_count : Nat
  exclusive : Bool
  upgrade : Bool
  exclusive_waiting_blocked : Bool
  deriving DecidableEq, Repr

/-- The state the constructor builds: `state{0u, false, false, false}`. -/
def initial : state_data :=
  { shared_count := 0, exclusive := false, upgrade := false,
    exclusive_waiting_blocked := false }

/-- How one pass through the loop of a blocking member function ends: the
function finishes, or the thread reaches `wait` and gives up `state_change`. -/
inductive blocking where
  | acquired (s : state_data)
  | suspended (s : state_data)
  deriving DecidableEq, Repr

/-- The state a pass leaves behind. -/
def blocking.state : blocking → state_data
  | .acquired s => s
  | .suspended s => s

/-- Whether the pass left the loop. -/
def blocking.proceeds : blocking → Bool
  | .acquired _ => true
  | .suspended _ => false

/-- `lock_shared` (acquire_shared). -/
def lock_shared (s : state_data) : blocking :=
  if s.exclusive || s.exclusive_waiting_blocked then
    .suspended s
  else
    .acquired { s with shared_count := incr s.shared_count }

/-- `try_lock_shared` (try_acquire_shared). -/
def try_lock_shared (s : state_data) : Bool × state_data :=
  if s.exclusive || s.exclusive_waiting_blocked then
    (false, s)
  else
    (true, { s with shared_count := incr s.shared_count })

/-- `unlock_shared` (release_shared). -/
def unlock_shared (s : state_data) : state_data :=
  let s1 := { s with shared_count := decr s.shared_count }
  let last_reader := s1.shared_count == 0
  if last_reader then
    if s1.upgrade then
      { s1 with upgrade := false, exclusive := true }
    else
      { s1 with exclusive_waiting_blocked := false }
  else
    s1

/-- `lock` (acquire_exclusive). -/
def lock (s : state_data) : blocking :=
  if s.shared_count != 0 || s.exclusive then
    .suspended { s with exclusive_waiting_blocked := true }
  else
    .acquired { s with exclusive := true }

/-- `try_lock` (try_acquire_exclusive). -/
def try_lock (s : state_data) : Bool × state_data :=
  if s.shared_count != 0 || s.exclusive then
    (false, s)
  else
    (true, { s with exclusive := true })

/-- `unlock` (release_exclusive). -/
def unlock (s : state_data) : state_data :=
  { s with exclusive := false, exclusive_waiting_blocked := false }

/-- `lock_upgrade` (acquire_upgrade). -/
def lock_upgrade (s : state_data) : blocking :=
  if s.exclusive || s.exclusive_waiting_blocked || s.upgrade then
    .suspended s
  else
    .acquired { s with shared_count := incr s.shared_count, upgrade := true }

/-- `try_lock_upgrade` (try_acquire_upgrade). -/
def try_lock_upgrade (s : state_data) : Bool × state_data :=
  if s.exclusive || s.exclusive_waiting_blocked || s.upgrade then
    (false, s)
  else
    (true, { s with shared_count := incr s.shared_count, upgrade := true })

/-- `unlock_upgrade` (release_upgrade). -/
def unlock_upgrade (s : state_data) : state_data :=
  let s1 := { s with upgrade := false }
  let s2 := { s1 with shared_count := decr s1.shared_count }
  let last_reader := s2.shared_count == 0
  if last_reader then
    { s2 with exclusive_waiting_blocked := false }
  else
    s2

/-- The loop of `unlock_upgrade_and_lock`, which a thread woken from
`upgrade_cond` runs again. -/
def unlock_upgrade_and_lock_loop (s : state_data) : blocking :=
  if s.shared_count != 0 then
    .suspended s
  else
    .acquired { s with upgrade := false, exclusive := true }

/-- `unlock_upgrade_and_lock` (upgrade_to_exclusive): the decrement, then the
loop. -/
def unlock_upgrade_and_lock (s : state_data) : blocking :=
  unlock_upgrade_and_lock_loop { s with shared_count := decr s.shared_count }

/-- `unlock_and_lock_upgrade` (exclusive_to_upgrade). -/
def unlock_and_lock_upgrade (s : state_data) : state_data :=
  { shared_count := incr s.shared_count, exclusive := false, upgrade := true,
    exclusive_waiting_blocked := false }

/-- `unlock_and_lock_shared` (exclusive_to_shared). -/
def unlock_and_lock_shared (s : state_data) : state_data :=
  { s with exclusive := false, shared_count := incr s.shared_count,
           exclusive_waiting_blocked := false }

/-- `try_unlock_shared_and_lock` (try_release_shared_and_acquire_exclusive). -/
def try_unlock_shared_and_lock (s : state_data) : Bool × state_data :=
  if !s.exclusive && !s.exclusive_waiting_blocked && !s.upgrade
      && s.shared_count == 1 then
    (true, { s with shared_count := 0, exclusive := true })
  else
    (false, s)

/-- `unlock_upgrade_and_lock_shared` (upgrade_to_shared). -/
def unlock_upgrade_and_lock_shared (s : state_data) : state_data :=
  { s with upgrade := false, exclusive_waiting_blocked := false }

/-! ## The threads around the mutex

The class keeps no record of which thread holds what.  To speak about "a
thread that holds the corresponding access" the state is paired with ghost
counters of the threads in each role; they are never read by the code. -/

/-- The mutex together with the ghost counters of its callers. -/
structure system where
  /-- the member `state` -/
  state : state_data
  /-- threads holding shared access only -/
  readers : Nat
  /-- threads holding upgrade access (and with it one shared slot) -/
  upgraders : Nat
  /-- threads holding exclusive access -/
  writers : Nat
  /-- threads suspended inside `unlock_upgrade_and_lock`: they still hold
  upgrade status but have given up their shared slot -/
  upgrading : Nat
  /-- threads suspended inside `lock` -/
  lock_waiters : Nat
  /-- threads suspended inside `lock_shared` -/
  shared_waiters : Nat
  /-- threads suspended inside `lock_upgrade` -/
  upgrade_waiters : Nat
  deriving DecidableEq, Repr

/-- A freshly constructed mutex that no thread has touched. -/
def system.init : system :=
  { state := initial, readers := 0, upgraders := 0, writers := 0, upgrading := 0,
    lock_waiters := 0, shared_waiters := 0, upgrade_waiters := 0 }

/-- One atomic section under `state_change`: a call of a member function up to
its return or its first `wait`, or a suspended thread waking up and running its
loop test again (up to its return or its next `wait`). -/
inductive event where
  | lock_shared
  | lock_shared_wake
  | try_lock_shared
  | unlock_shared
  | lock
  | lock_wake
  | try_lock
  | unlock
  | lock_upgrade
  | lock_upgrade_wake
  | try_lock_upgrade
  | unlock_upgrade
  | unlock_upgrade_and_lock
  | unlock_upgrade_and_lock_wake
  | unlock_and_lock_upgrade
  | unlock_and_lock_shared
  | try_unlock_shared_and_lock
  | unlock_upgrade_and_lock_shared
  deriving DecidableEq, Repr

/-- The step taken by `e` in `g`; `none` when no thread can take it: a release,
downgrade or upgrade needs a thread holding the corresponding access, a wake-up
needs a thread suspended in the corresponding function. -/
def step (g : system) : event → Option system
  | .lock_shared =>
    match lock_shared g.state with
    | .acquired s => some { g with state := s, readers := g.readers + 1 }
    | .suspended s => some { g with state := s, shared_waiters := g.shared_waiters + 1 }
  | .lock_shared_wake =>
    if g.shared_waiters = 0 then none else
    match lock_shared g.state with
    | .acquired s =>
      some { g with state := s, readers := g.readers + 1,
                    shared_waiters := g.shared_waiters - 1 }
    | .suspended s => some { g with state := s }
  | .try_lock_shared =>
    match try_lock_shared g.state with
    | (true, s) => some { g with state := s, readers := g.readers + 1 }
    | (false, s) => some { g with state := s }
  | .unlock_shared =>
    if g.readers = 0 then none else
    some { g with state := unlock_shared g.state, readers := g.readers - 1 }
  | .lock =>
    match lock g.state with
    | .acquired s => some { g with state := s, writers := g.writers + 1 }
    | .suspended s => some { g with state := s, lock_waiters := g.lock_waiters + 1 }
  | .lock_wake =>
    if g.lock_waiters = 0 then none else
    match lock g.state with
    | .acquired s =>
      some { g with state := s, writers := g.writers + 1,
                    lock_waiters := g.lock_waiters - 1 }
    | .suspended s => some { g with state := s }
  | .try_lock =>
    match try_lock g.state with
    | (true, s) => some { g with state := s, writers := g.writers + 1 }
    | (false, s) => some { g with state := s }
  | .unlock =>
    if g.writers = 0 then none else
    some { g with state := unlock g.state, writers := g.writers - 1 }
  | .lock_upgrade =>
    match lock_upgrade g.state with
    | .acquired s => some { g with state := s, upgraders := g.upgraders + 1 }
    | .suspended s =>
      some { g with state := s, upgrade_waiters := g.upgrade_waiters + 1 }
  | .lock_upgrade_wake =>
    if g.upgrade_waiters = 0 then none else
    match lock_upgrade g.state with
    | .acquired s =>
      some { g with state := s, upgraders := g.upgraders + 1,
                    upgrade_waiters := g.upgrade_waiters - 1 }
    | .suspended s => some { g with state := s }
  | .try_lock_upgrade =>
    match try_lock_upgrade g.state with
    | (true, s) => some { g with state := s, upgraders := g.upgraders + 1 }
    | (false, s) => some { g with state := s }
  | .unlock_upgrade =>
    if g.upgraders = 0 then none else
    some { g with state := unlock_upgrade g.state, upgraders := g.upgraders - 1 }
  | .unlock_upgrade_and_lock =>
    if g.upgraders = 0 then none else
    match unlock_upgrade_and_lock g.state with
    | .acquired s =>
      some { g with state := s, upgraders := g.upgraders - 1,
                    writers := g.writers + 1 }
    | .suspended s =>
      some { g with state := s, upgraders := g.upgraders - 1,
                    upgrading := g.upgrading + 1 }
  | .unlock_upgrade_and_lock_wake =>
    if g.upgrading = 0 then none else
    match unlock_upgrade_and_lock_loop g.state with
    | .acquired s =>
      some { g with state := s, upgrading := g.upgrading - 1,
                    writers := g.writers + 1 }
    | .suspended s => some { g with state := s }
  | .unlock_and_lock_upgrade =>
    if g.writers = 0 then none else
    some { g with state := unlock_and_lock_upgrade g.state,
                  writers := g.writers - 1, upgraders := g.upgraders + 1 }
  | .unlock_and_lock_shared =>
    if g.writers = 0 then none else
    some { g with state := unlock_and_lock_shared g.state,
                  writers := g.writers - 1, readers := g.readers + 1 }
  | .try_unlock_shared_and_lock =>
    if g.readers = 0 then none else
    match try_unlock_shared_and_lock g.state with
    | (true, s) =>
      some { g with state := s, readers := g.readers - 1, writers := g.writers + 1 }
    | (false, s) => some { g with state := s }
  | .unlock_upgrade_and_lock_shared =>
    if g.upgraders = 0 then none else
    some { g with state := unlock_upgrade_and_lock_shared g.state,
                  upgraders := g.upgraders - 1, readers := g.readers + 1 }

/-- The events of a list, one after the other. -/
def run (g : system) : List event → Option system
  | [] => some g
  | e :: es => (step g e).bind fun t => run t es

/-- Number of shared slots in use: each reader and each upgrader has one. -/
def system.slots (g : system) : Nat := g.readers + g.upgraders

/-- The states reachable from a fresh mutex. -/
inductive reachable : system → Prop
  | init : reachable system.init
  | step (g t : system) (e : event) :
      reachable g → step g e = some t → reachable t

/-- The states reachable from a fresh mutex by runs in which never more than
`cap` shared slots are in use at once. -/
inductive reachable_within (cap : Nat) : system → Prop
  | init : reachable_within cap system.init
  | step (g t : system) (e : event) :
      reachable_within cap g → step g e = some t → t.slots ≤ cap →
      reachable_within cap t

/-- What the ghost counters and the record have to do with each other as long
as the counter does not wrap. -/
structure system.consistent (g : system) : Prop where
  bound : g.readers + g.upgraders ≤ UINT_MAX
  count : g.state.shared_count = g.readers + g.upgraders
  one_upgrade : g.upgraders + g.upgrading ≤ 1
  one_writer : g.writers ≤ 1
  excl : g.state.exclusive = true ↔
    (g.writers = 1 ∨ (g.upgrading = 1 ∧ g.state.upgrade = false))
  upgr : g.state.upgrade = true ↔
    (g.upgraders = 1 ∨ (g.upgrading = 1 ∧ g.state.exclusive = false))
  writer_alone : g.writers = 1 → g.readers = 0 ∧ g.upgraders = 0 ∧ g.upgrading = 0
  handed_off : g.upgrading = 1 → g.state.exclusive = true → g.readers = 0
  still_waiting : g.upgrading = 1 → g.state.exclusive = false → 1 ≤ g.readers

/-- The events of a list, one after the other, as long as never more than
`cap` shared slots are in use. -/
def run_within (cap : Nat) (g : system) : List event → Option system
  | [] => some g
  | e :: es =>
    (step g e).bind fun t => if t.slots ≤ cap then run_within cap t es else none

/-! ## States used as examples -/

/-- After `lock_upgrade` and `UINT_MAX` calls of `lock_shared` on a fresh mutex:
`UINT_MOD` slots are taken and the counter is back at `0`. -/
def wrapped : system :=
  { state := { shared_count := 0, exclusive := false, upgrade := true,
               exclusive_waiting_blocked := false },
    readers := UINT_MAX, upgraders := 1, writers := 0, upgrading := 0,
    lock_waiters := 0, shared_waiters := 0, upgrade_waiters := 0 }

/-- After `try_lock` in `wrapped`. -/
def wrapped_exclusive : system :=
  { state := { shared_count := 0, exclusive := true, upgrade := true,
               exclusive_waiting_blocked := false },
    readers := UINT_MAX, upgraders := 1, writers := 1, upgrading := 0,
    lock_waiters := 0, shared_waiters := 0, upgrade_waiters := 0 }

/-- After `unlock_and_lock_upgrade` in `wrapped_exclusive`. -/
def wrapped_two_upgraders : system :=
  { state := { shared_count := 1, exclusive := false, upgrade := true,
               exclusive_waiting_blocked := false },
    readers := UINT_MAX, upgraders := 2, writers := 0, upgrading := 0,
    lock_waiters := 0, shared_waiters := 0, upgrade_waiters := 0 }

/-- One reader and an upgrade holder suspended inside `unlock_upgrade_and_lock`:
after `lock_shared`, `lock_upgrade`, `unlock_upgrade_and_lock`. -/
def upgrader_suspended : system :=
  { state := { shared_count := 1, exclusive := false, upgrade := true,
               exclusive_waiting_blocked := false },
    readers := 1, upgraders := 0, writers := 0, upgrading := 1,
    lock_waiters := 0, shared_waiters := 0, upgrade_waiters := 0 }

/-- The reader of `upgrader_suspended` has called `unlock_shared`: the mutex is
handed to the suspended thread, which has not run yet. -/
def handed_over : system :=
  { state := { shared_count := 0, exclusive := true, upgrade := false,
               exclusive_waiting_blocked := false },
    readers := 0, upgraders := 0, writers := 0, upgrading := 1,
    lock_waiters := 0, shared_waiters := 0, upgrade_waiters := 0 }

/-- A writer took the mutex with `try_lock`, a second thread called `lock` and
is suspended, the writer called `unlock`: after `try_lock`, `lock`, `unlock`. -/
def writer_passed_over : system :=
  { state := initial,
    readers := 0, upgraders := 0, writers := 0, upgrading := 0,
    lock_waiters := 1, shared_waiters := 0, upgrade_waiters := 0 }

/-- Two readers hold the mutex: after two calls of `lock_shared`. -/
def two_readers : system :=
  { state := { shared_count := 2, exclusive := false, upgrade := false,
               exclusive_waiting_blocked := false },
    readers := 2, upgraders := 0, writers := 0, upgrading := 0,
    lock_waiters := 0, shared_waiters := 0, upgrade_waiters := 0 }

/-- A thread has called `lock` in `two_readers` and is suspended. -/
def two_readers_writer_waiting : system :=
  { state := { shared_count := 2, exclusive := false, upgrade := false,
               exclusive_waiting_blocked := true },
    readers := 2, upgraders := 0, writers := 0, upgrading := 0,
    lock_waiters := 1, shared_waiters := 0, upgrade_waiters := 0 }

/-- One of the two readers of `two_readers_writer_waiting` has called
`unlock_shared`, after a `lock_shared` of a third thread that had to wait. -/
def one_reader_writer_waiting : system :=
  { state := { shared_count := 1, exclusive := false, upgrade := false,
               exclusive_waiting_blocked := true },
    readers := 1, upgraders := 0, writers := 0, upgrading := 0,
    lock_waiters := 1, shared_waiters := 1, upgrade_waiters := 0 }

/-- One thread holds upgrade access and two others hold shared access: after
`lock_shared`, `lock_upgrade`, `lock_shared`. -/
def upgrader_and_readers : system :=
  { state := { shared_count := 3, exclusive := false, upgrade := true,
               exclusive_waiting_blocked := false },
    readers := 2, upgraders := 1, writers := 0, upgrading := 0,
    lock_waiters := 0, shared_waiters := 0, upgrade_waiters := 0 }

/-- What `n` readers leave behind on a fresh mutex when the counter has not
wrapped: `n` calls of `lock_shared`. -/
def n_readers (n : Nat) : system :=
  { state := { shared_count := n, exclusive := false, upgrade := false,
               exclusive_waiting_blocked := false },
    readers := n, upgraders := 0, writers := 0, upgrading := 0,
    lock_waiters := 0, shared_waiters := 0, upgrade_waiters := 0 }

/-- The record of a mutex held exclusively and by nobody else. -/
def held_exclusive : state_data :=
  { shared_count := 0, exclusive := true, upgrade := false,
    exclusive_waiting_blocked := false }

/-- After `UINT_MOD` calls of `lock_shared` on a fresh mutex: the counter is
back at `0`. -/
def wrapped_readers : system :=
  { state := initial,
    readers := UINT_MOD, upgraders := 0, writers := 0, upgrading := 0,
    lock_waiters := 0, shared_waiters := 0, upgrade_waiters := 0 }

/-- After `try_lock` (which succeeds), `lock` (which waits) and `UINT_MAX` calls
of `unlock_shared` in `wrapped_readers`: one reader is left next to the writer. -/
def wrapped_last_reader : system :=
  { state := { shared_count := 1, exclusive := true, upgrade := false,
               exclusive_waiting_blocked := true },
    readers := 1, upgraders := 0, writers := 1, upgrading := 0,
    lock_waiters := 1, shared_waiters := 0, upgrade_waiters := 0 }

/-- The run `lock_shared; unlock_shared`, `n` times. -/
def round_trips : Nat → List event
  | 0 => []
  | n + 1 => .lock_shared :: .unlock_shared :: round_trips n

/-- A record whose counter has its largest value, with no flag set. -/
def full_count : state_data :=
  { shared_count := UINT_MAX, exclusive := false, upgrade := false,
    exclusive_waiting_blocked := false }

/-- The record of a mutex held by one reader and nobody else. -/
def sole_reader : state_data :=
  { shared_count := 1, exclusive := false, upgrade := false,
    exclusive_waiting_blocked := false }

/-- The record while one thread holds upgrade access next to two readers. -/
def upgrade_among_readers : state_data :=
  { shared_count := 3, exclusive := false, upgrade := true,
    exclusive_waiting_blocked := false }

/-- The record while one thread holds upgrade access and nobody else holds
anything, with a writer waiting. -/
def upgrade_alone_writer_waiting : state_data :=
  { shared_count := 1, exclusive := false, upgrade := true,
    exclusive_waiting_blocked := true }

/-- A record with `exclusive` set next to a counter at its largest value; it
is reached when `UINT_MOD` readers have wrapped the counter, `try_lock` has
succeeded and one reader has called `unlock_shared`. -/
def exclusive_full_count : state_data :=
  { shared_count := UINT_MAX, exclusive := true, upgrade := false,
    exclusive_waiting_blocked := false }

/-- The record of a mutex held exclusively while another writer waits. -/
def held_exclusive_writer_waiting : state_data :=
  { shared_count := 0, exclusive := true, upgrade := false,
    exclusive_waiting_blocked := true }

/-- After `try_lock` (which succeeds) and one `unlock_shared` in
`wrapped_readers`: a writer next to `UINT_MAX` readers, with the record
`exclusive_full_count`. -/
def wrapped_writer : system :=
  { state := exclusive_full_count,
    readers := UINT_MAX, upgraders := 0, writers := 1, upgrading := 0,
    lock_waiters := 0, shared_waiters := 0, upgrade_waiters := 0 }

/-- A free mutex never has `exclusive_waiting_blocked` set. -/
def free_unblocked (s : state_data) : Prop :=
  s.shared_count = 0 → s.exclusive = false → s.exclusive_waiting_blocked = false

/-- A record that breaks the invariants of the data model: `upgrade` is set
with no shared slot in use. -/
def upgrade_without_slot : state_data :=
  { shared_count := 0, exclusive := false, upgrade := true,
    exclusive_waiting_blocked := false }

/-- The invariants of the data model on a record: `exclusive` implies
`shared_count = 0` and no `upgrade`; `upgrade` implies `shared_count ≥ 1`. -/
def data_model_invariants (s : state_data) : Prop :=
  (s.exclusive = true → s.shared_count = 0 ∧ s.upgrade = false) ∧
  (s.upgrade = true → 1 ≤ s.shared_count)

end shared_mutex

/-!
# The workload generator of the task-spawn benchmark

A shallow embedding of the part of `qthreads_main` in
`tests/performance/qthreads_heterogeneous_task_spawn.cpp` that validates the
command line, draws one delay per task and validates what it has drawn.

All quantities are `boost::uint64_t`; `-`, `*` and `+` wrap around at `U64_MOD`.
Three things belong to libraries and are parameters of `qthreads_main`:
`reserve n` is what `payloads.reserve(n)` throws, if anything; `dist k low high`
is the value drawn from `uniform_int_distribution(low, high)` when `k` draws
have been made before; `random_shuffle rand l` is `std::random_shuffle` applied
to `l` with the function object `rand`, which gets the number of the call
next to its argument.  `shuffler` itself is part of the source.
-/

namespace task_spawn

/-- Number of values of `boost::uint64_t`. -/
def U64_MOD : Nat := 18446744073709551616

/-- The operator `-` on `boost::uint64_t`: the difference, taken from `U64_MOD`
when it would be negative (`sub64_eq_mod`). -/
def sub64 (a b : Nat) : Nat := if b ≤ a then a - b else U64_MOD - (b - a)

/-- The operator `*` on `boost::uint64_t`. -/
def mul64 (a b : Nat) : Nat := (a * b) % U64_MOD

/-- The operator `+` on `boost::uint64_t`: the sum, less `U64_MOD` when it
does not fit (`add64_eq_mod`). -/
def add64 (a b : Nat) : Nat := if a + b < U64_MOD then a + b else a + b - U64_MOD

/-- The exceptions thrown by `qthreads_main` before the tasks are queued, one
constructor for each `throw`. -/
inductive failure where
  /-- `invalid_argument`: count of 0 tasks specified -/
  | zero_tasks
  /-- `invalid_argument`: minimum delay cannot be larger than maximum delay -/
  | min_above_max
  /-- `invalid_argument`: minimum delay cannot be larger than total delay -/
  | min_above_total
  /-- `invalid_argument`: maximum delay cannot be larger than total delay -/
  | max_above_total
  /-- `invalid_argument` thrown when `min_delay * tasks > total_delay` -/
  | min_times_tasks_above_total
  /-- `invalid_argument` thrown when `max_delay * tasks < total_delay` -/
  | max_times_tasks_below_total
  /-- `logic_error`: task delay is below minimum -/
  | delay_below_minimum
  /-- `logic_error`: task delay is above maximum -/
  | delay_above_maximum
  /-- `logic_error`: incorrect number of tasks generated -/
  | incorrect_number
  /-- `logic_error`: incorrect total delay generated -/
  | incorrect_total
  /-- `logic_error`: high value was 0 (thrown by `shuffler`) -/
  | high_value_zero
  /-- `std::length_error`, thrown by `payloads.reserve` -/
  | length_error
  /-- `std::bad_alloc`, thrown by `payloads.reserve` -/
  | bad_alloc
  deriving DecidableEq, Repr

/-- What one pass through the generation loop has computed. -/
structure iteration where
  low : Nat
  high : Nat
  payload : Nat
  deriving DecidableEq, Repr

/-- The value `low` of iteration `i`. -/
def low (min_delay max_delay total_delay tasks i current_sum : Nat) : Nat :=
  let low_calc :=
    sub64 (sub64 total_delay current_sum) (mul64 max_delay (sub64 (sub64 tasks 1) i))
  let negative :=
    decide (sub64 total_delay current_sum < mul64 max_delay (sub64 (sub64 tasks 1) i))
  if negative || decide (low_calc < min_delay) then min_delay else low_calc

/-- The value `high` of iteration `i`. -/
def high (min_delay max_delay total_delay tasks i current_sum : Nat) : Nat :=
  let high_calc :=
    sub64 (sub64 total_delay current_sum) (mul64 min_delay (sub64 (sub64 tasks 1) i))
  if high_calc > max_delay then max_delay else high_calc

/-- The loop `for (i = 0; i < tasks; ++i)`.  The first argument is the number of
passes still to make (`tasks - i`), then come `i`, `current_sum` and what the
passes made so far have computed; `payloads` is the list of the `payload`
fields. -/
def payload_loop (min_delay max_delay total_delay tasks : Nat)
    (dist : Nat → Nat → Nat → Nat) :
    Nat → Nat → Nat → List iteration → Except failure (List iteration)
  | 0, _, _, done => .ok done
  | k + 1, i, current_sum, done =>
    let lo := low min_delay max_delay total_delay tasks i current_sum
    let hi := high min_delay max_delay total_delay tasks i current_sum
    let payload := dist i lo hi
    if payload < min_delay then .error .delay_below_minimum
    else if payload > max_delay then .error .delay_above_maximum
    else
      payload_loop min_delay max_delay total_delay tasks dist k (i + 1)
        (add64 current_sum payload) (done ++ [⟨lo, hi, payload⟩])

/-- The function `shuffler`: the argument `prng` is the number of draws made
before the call. -/
def shuffler (dist : Nat → Nat → Nat → Nat) (prng : Nat) (high : Nat) :
    Except failure Nat :=
  if high = 0 then .error .high_value_zero
  else .ok (dist prng 0 (sub64 high 1))

/-- The function `qthreads_main` from the validation of the command line to the
validation of the payloads: the shuffled payloads, or the exception thrown. -/
def qthreads_main (min_delay max_delay total_delay tasks : Nat)
    (reserve : Nat → Option failure) (dist : Nat → Nat → Nat → Nat)
    (random_shuffle : (Nat → Nat → Except failure Nat) → List Nat →
      Except failure (List Nat)) :
    Except failure (List Nat) :=
  if tasks = 0 then .error .zero_tasks
  else if min_delay > max_delay then .error .min_above_max
  else if min_delay > total_delay then .error .min_above_total
  else if max_delay > total_delay then .error .max_above_total
  else if mul64 min_delay tasks > total_delay then .error .min_times_tasks_above_total
  else if mul64 max_delay tasks < total_delay then .error .max_times_tasks_below_total
  else
    match reserve tasks with
    | some e => .error e
    | none =>
      match payload_loop min_delay max_delay total_delay tasks dist tasks 0 0 [] with
      | .error e => .error e
      | .ok its =>
        match random_shuffle (fun call high => shuffler dist (tasks + call) high)
            (its.map iteration.payload) with
        | .error e => .error e
        | .ok payloads =>
          if payloads.length ≠ tasks then .error .incorrect_number
          else if payloads.foldl add64 0 ≠ total_delay then .error .incorrect_total
          else .ok payloads

/-! ## What the libraries promise, and instances of it -/

/-- No `std::vector<boost::uint64_t>` can hold more elements than this: the
largest `size_type` divided by the size of an element. -/
def VECTOR_MAX_SIZE : Nat := 2305843009213693951

/-- What every `reserve` does: a request above `max_size()`, which is at most
`VECTOR_MAX_SIZE`, throws `std::length_error`. -/
def reserve_conforming (reserve : Nat → Option failure) : Prop :=
  ∀ n, VECTOR_MAX_SIZE < n → reserve n = some .length_error

/-- The `reserve` that throws only what every `reserve` throws. -/
def reserve_largest (n : Nat) : Option failure :=
  if VECTOR_MAX_SIZE < n then some .length_error else none

/-- A `reserve` that always returns. -/
def reserve_always (_ : Nat) : Option failure := none

/-- What `std::random_shuffle` promises: if the function object, called with a
positive `n`, returns a value below `n`, then the call returns and leaves a
permutation of the sequence. -/
def shuffle_conforming
    (random_shuffle : (Nat → Nat → Except failure Nat) → List Nat →
      Except failure (List Nat)) : Prop :=
  ∀ (rand : Nat → Nat → Except failure Nat) (l : List Nat),
    (∀ call n, 0 < n → ∃ v, rand call n = .ok v ∧ v < n) →
    ∃ l', random_shuffle rand l = .ok l' ∧ l'.Perm l

/-- The elements at positions `i` and `j` exchanged (`std::iter_swap`). -/
def swap (l : List Nat) (i j : Nat) : List Nat :=
  (l.set i (l.getD j 0)).set j (l.getD i 0)

/-- The loop of `random_shuffle`: `k` passes from position `i` on. -/
def random_shuffle_from (rand : Nat → Nat → Except failure Nat) :
    Nat → Nat → List Nat → Except failure (List Nat)
  | 0, _, l => .ok l
  | k + 1, i, l =>
    match rand (i - 1) (i + 1) with
    | .error e => .error e
    | .ok j => random_shuffle_from rand k (i + 1) (swap l i j)

/-- An instance of `std::random_shuffle`, the one of libstdc++: for each
position `i` from the second one on, the element is exchanged with the one at
position `rand(i + 1)`. -/
def random_shuffle (rand : Nat → Nat → Except failure Nat) (l : List Nat) :
    Except failure (List Nat) :=
  random_shuffle_from rand (l.length - 1) 1 l

/-- A distribution that always draws the smallest value of its range. -/
def dist_low : Nat → Nat → Nat → Nat := fun _ lo _ => lo

/-- A distribution that always draws the largest value of its range. -/
def dist_high : Nat → Nat → Nat → Nat := fun _ _ hi => hi

end task_spawn

namespace shared_mutex

/-! ## Arithmetic of the counter -/

theorem incr_eq_mod (c : Nat) (h : c < UINT_MOD) : incr c = (c + 1) % UINT_MOD := by
  unfold incr UINT_MAX
  unfold UINT_MOD at *
  split <;> omega

theorem decr_eq_mod (c : Nat) (h : c < UINT_MOD) :
    decr c = (c + (UINT_MOD - 1)) % UINT_MOD := by
  unfold decr UINT_MAX
  unfold UINT_MOD at *
  split <;> omega

theorem incr_of_lt (c : Nat) (h : c < UINT_MAX) : incr c = c + 1 := by
  unfold incr
  split <;> omega

theorem decr_of_pos (c : Nat) (h : 0 < c) : decr c = c - 1 := by
  unfold decr
  split <;> omega

/-! ## The ghost counters agree with the record

Each event keeps `system.consistent` as long as the number of shared slots in
use stays representable. -/

theorem consistent_init : system.init.consistent := by
  constructor <;> simp [system.init, initial, UINT_MAX]

theorem consistent_lock_shared (g t : system) (hg : g.consistent)
    (hs : step g .lock_shared = some t) (ht : t.slots ≤ UINT_MAX) : t.consistent := by
  obtain ⟨h0, h1, h2, h3, h4, h5, h6, h7, h8⟩ := hg
  obtain ⟨⟨c, X, U, B⟩, r, u, x, w, lw, sw, uw⟩ := g
  simp only at h0 h1 h2 h3 h4 h5 h6 h7 h8
  subst h1
  have hi := incr_of_lt (r + u)
  have hd := decr_of_pos (r + u)
  cases X <;> cases U <;> cases B <;>
    simp [step, lock_shared] at hs h4 h5 h7 h8
  all_goals try (obtain ⟨hne, hs⟩ := hs)
  all_goals try simp only [system.slots] at ht
  all_goals try (constructor <;> simp <;> omega)

theorem consistent_lock_shared_wake (g t : system) (hg : g.consistent)
    (hs : step g .lock_shared_wake = some t) (ht : t.slots ≤ UINT_MAX) : t.consistent := by
  obtain ⟨h0, h1, h2, h3, h4, h5, h6, h7, h8⟩ := hg
  obtain ⟨⟨c, X, U, B⟩, r, u, x, w, lw, sw, uw⟩ := g
  simp only at h0 h1 h2 h3 h4 h5 h6 h7 h8
  subst h1
  have hi := incr_of_lt (r + u)
  have hd := decr_of_pos (r + u)
  cases X <;> cases U <;> cases B <;>
    simp [step, lock_shared] at hs h4 h5 h7 h8
  all_goals try (obtain ⟨hne, hs⟩ := hs)
  all_goals try subst hs
  all_goals try simp only [system.slots] at ht
  all_goals try (constructor <;> simp <;> omega)

theorem consistent_try_lock_shared (g t : system) (hg : g.consistent)
    (hs : step g .try_lock_shared = some t) (ht : t.slots ≤ UINT_MAX) : t.consistent := by
  obtain ⟨h0, h1, h2, h3, h4, h5, h6, h7, h8⟩ := hg
  obtain ⟨⟨c, X, U, B⟩, r, u, x, w, lw, sw, uw⟩ := g
  simp only at h0 h1 h2 h3 h4 h5 h6 h7 h8
  subst h1
  have hi := incr_of_lt (r + u)
  have hd := decr_of_pos (r + u)
  cases X <;> cases U <;> cases B <;>
    simp [step, try_lock_shared] at hs h4 h5 h7 h8
  all_goals try (obtain ⟨hne, hs⟩ := hs)
  all_goals try simp only [system.slots] at ht
  all_goals try (constructor <;> simp <;> omega)

theorem consistent_unlock_shared (g t : system) (hg : g.consistent)
    (hs : step g .unlock_shared = some t) (ht : t.slots ≤ UINT_MAX) : t.consistent := by
  obtain ⟨h0, h1, h2, h3, h4, h5, h6, h7, h8⟩ := hg
  obtain ⟨⟨c, X, U, B⟩, r, u, x, w, lw, sw, uw⟩ := g
  simp only at h0 h1 h2 h3 h4 h5 h6 h7 h8
  subst h1
  have hi := incr_of_lt (r + u)
  have hd := decr_of_pos (r + u)
  cases X <;> cases U <;> cases B <;>
    simp [step, unlock_shared] at hs h4 h5 h7 h8
  all_goals try (obtain ⟨hne, hs⟩ := hs)
  all_goals try split_ifs at hs
  all_goals try subst hs
  all_goals try simp only [system.slots] at ht
  all_goals try (constructor <;> simp <;> omega)

theorem consistent_lock (g t : system) (hg : g.consistent)
    (hs : step g .lock = some t) (ht : t.slots ≤ UINT_MAX) : t.consistent := by
  obtain ⟨h0, h1, h2, h3, h4, h5, h6, h7, h8⟩ := hg
  obtain ⟨⟨c, X, U, B⟩, r, u, x, w, lw, sw, uw⟩ := g
  simp only at h0 h1 h2 h3 h4 h5 h6 h7 h8
  subst h1
  have hi := incr_of_lt (r + u)
  have hd := decr_of_pos (r + u)
  cases X <;> cases U <;> cases B <;>
    simp [step, lock] at hs h4 h5 h7 h8
  all_goals try (obtain ⟨hne, hs⟩ := hs)
  all_goals try split_ifs at hs
  all_goals try simp only [Option.some.injEq, reduceCtorEq] at hs
  all_goals try subst hs
  all_goals try simp only [system.slots] at ht
  all_goals try (constructor <;> simp <;> omega)

theorem consistent_lock_wake (g t : system) (hg : g.consistent)
    (hs : step g .lock_wake = some t) (ht : t.slots ≤ UINT_MAX) : t.consistent := by
  obtain ⟨h0, h1, h2, h3, h4, h5, h6, h7, h8⟩ := hg
  obtain ⟨⟨c, X, U, B⟩, r, u, x, w, lw, sw, uw⟩ := g
  simp only at h0 h1 h2 h3 h4 h5 h6 h7 h8
  subst h1
  have hi := incr_of_lt (r + u)
  have hd := decr_of_pos (r + u)
  cases X <;> cases U <;> cases B <;>
    simp [step, lock] at hs h4 h5 h7 h8
  all_goals try (obtain ⟨hne, hs⟩ := hs)
  all_goals try split_ifs at hs
  all_goals try simp only [Option.some.injEq, reduceCtorEq] at hs
  all_goals try subst hs
  all_goals try simp only [system.slots] at ht
  all_goals try (constructor <;> simp <;> omega)

theorem consistent_try_lock (g t : system) (hg : g.consistent)
    (hs : step g .try_lock = some t) (ht : t.slots ≤ UINT_MAX) : t.consistent := by
  obtain ⟨h0, h1, h2, h3, h4, h5, h6, h7, h8⟩ := hg
  obtain ⟨⟨c, X, U, B⟩, r, u, x, w, lw, sw, uw⟩ := g
  simp only at h0 h1 h2 h3 h4 h5 h6 h7 h8
  subst h1
  have hi := incr_of_lt (r + u)
  have hd := decr_of_pos (r + u)
  cases X <;> cases U <;> cases B <;>
    simp [step, try_lock] at hs h4 h5 h7 h8
  all_goals try (obtain ⟨hne, hs⟩ := hs)
  all_goals try split_ifs at hs
  all_goals try simp only [Option.some.injEq, reduceCtorEq] at hs
  all_goals try subst hs
  all_goals try simp only [system.slots] at ht
  all_goals try (constructor <;> simp <;> omega)

theorem consistent_unlock (g t : system) (hg : g.consistent)
    (hs : step g .unlock = some t) (ht : t.slots ≤ UINT_MAX) : t.consistent := by
  obtain ⟨h0, h1, h2, h3, h4, h5, h6, h7, h8⟩ := hg
  obtain ⟨⟨c, X, U, B⟩, r, u, x, w, lw, sw, uw⟩ := g
  simp only at h0 h1 h2 h3 h4 h5 h6 h7 h8
  subst h1
  have hi := incr_of_lt (r + u)
  have hd := decr_of_pos (r + u)
  cases X <;> cases U <;> cases B <;>
    simp [step, unlock] at hs h4 h5 h7 h8
  all_goals try (obtain ⟨hne, hs⟩ := hs)
  all_goals try subst hs
  all_goals try simp only [system.slots] at ht
  all_goals try (constructor <;> simp <;> omega)

theorem consistent_lock_upgrade (g t : system) (hg : g.consistent)
    (hs : step g .lock_upgrade = some t) (ht : t.slots ≤ UINT_MAX) : t.consistent := by
  obtain ⟨h0, h1, h2, h3, h4, h5, h6, h7, h8⟩ := hg
  obtain ⟨⟨c, X, U, B⟩, r, u, x, w, lw, sw, uw⟩ := g
  simp only at h0 h1 h2 h3 h4 h5 h6 h7 h8
  subst h1
  have hi := incr_of_lt (r + u)
  have hd := decr_of_pos (r + u)
  cases X <;> cases U <;> cases B <;>
    simp [step, lock_upgrade] at hs h4 h5 h7 h8
  all_goals try (obtain ⟨hne, hs⟩ := hs)
  all_goals try simp only [system.slots] at ht
  all_goals try (constructor <;> simp <;> omega)

theorem consistent_lock_upgrade_wake (g t : system) (hg : g.consistent)
    (hs : step g .lock_upgrade_wake = some t) (ht : t.slots ≤ UINT_MAX) : t.consistent := by
  obtain ⟨h0, h1, h2, h3, h4, h5, h6, h7, h8⟩ := hg
  obtain ⟨⟨c, X, U, B⟩, r, u, x, w, lw, sw, uw⟩ := g
  simp only at h0 h1 h2 h3 h4 h5 h6 h7 h8
  subst h1
  have hi := incr_of_lt (r + u)
  have hd := decr_of_pos (r + u)
  cases X <;> cases U <;> cases B <;>
    simp [step, lock_upgrade] at hs h4 h5 h7 h8
  all_goals try (obtain ⟨hne, hs⟩ := hs)
  all_goals try subst hs
  all_goals try simp only [system.slots] at ht
  all_goals try (constructor <;> simp <;> omega)

theorem consistent_try_lock_upgrade (g t : system) (hg : g.consistent)
    (hs : step g .try_lock_upgrade = some t) (ht : t.slots ≤ UINT_MAX) : t.consistent := by
  obtain ⟨h0, h1, h2, h3, h4, h5, h6, h7, h8⟩ := hg
  obtain ⟨⟨c, X, U, B⟩, r, u, x, w, lw, sw, uw⟩ := g
  simp only at h0 h1 h2 h3 h4 h5 h6 h7 h8
  subst h1
  have hi := incr_of_lt (r + u)
  have hd := decr_of_pos (r + u)
  cases X <;> cases U <;> cases B <;>
    simp [step, try_lock_upgrade] at hs h4 h5 h7 h8
  all_goals try (obtain ⟨hne, hs⟩ := hs)
  all_goals try simp only [system.slots] at ht
  all_goals try (constructor <;> simp <;> omega)

theorem consistent_unlock_upgrade (g t : system) (hg : g.consistent)
    (hs : step g .unlock_upgrade = some t) (ht : t.slots ≤ UINT_MAX) : t.consistent := by
  obtain ⟨h0, h1, h2, h3, h4, h5, h6, h7, h8⟩ := hg
  obtain ⟨⟨c, X, U, B⟩, r, u, x, w, lw, sw, uw⟩ := g
  simp only at h0 h1 h2 h3 h4 h5 h6 h7 h8
  subst h1
  have hi := incr_of_lt (r + u)
  have hd := decr_of_pos (r + u)
  cases X <;> cases U <;> cases B <;>
    simp [step, unlock_upgrade] at hs h4 h5 h7 h8
  all_goals try (obtain ⟨hne, hs⟩ := hs)
  all_goals try split_ifs at hs
  all_goals try subst hs
  all_goals try simp only [system.slots] at ht
  all_goals try (constructor <;> simp <;> omega)

theorem consistent_unlock_upgrade_and_lock (g t : system) (hg : g.consistent)
    (hs : step g .unlock_upgrade_and_lock = some t) (ht : t.slots ≤ UINT_MAX) : t.consistent := by
  obtain ⟨h0, h1, h2, h3, h4, h5, h6, h7, h8⟩ := hg
  obtain ⟨⟨c, X, U, B⟩, r, u, x, w, lw, sw, uw⟩ := g
  simp only at h0 h1 h2 h3 h4 h5 h6 h7 h8
  subst h1
  have hi := incr_of_lt (r + u)
  have hd := decr_of_pos (r + u)
  cases X <;> cases U <;> cases B <;>
    simp [step, unlock_upgrade_and_lock, unlock_upgrade_and_lock_loop] at hs h4 h5 h7 h8
  all_goals try (obtain ⟨hne, hs⟩ := hs)
  all_goals try split_ifs at hs
  all_goals try simp only [Option.some.injEq, reduceCtorEq] at hs
  all_goals try subst hs
  all_goals try simp only [system.slots] at ht
  all_goals try (constructor <;> simp <;> omega)

theorem consistent_unlock_upgrade_and_lock_wake (g t : system) (hg : g.consistent)
    (hs : step g .unlock_upgrade_and_lock_wake = some t) (ht : t.slots ≤ UINT_MAX) : t.consistent := by
  obtain ⟨h0, h1, h2, h3, h4, h5, h6, h7, h8⟩ := hg
  obtain ⟨⟨c, X, U, B⟩, r, u, x, w, lw, sw, uw⟩ := g
  simp only at h0 h1 h2 h3 h4 h5 h6 h7 h8
  subst h1
  have hi := incr_of_lt (r + u)
  have hd := decr_of_pos (r + u)
  cases X <;> cases U <;> cases B <;>
    simp [step, unlock_upgrade_and_lock_loop] at hs h4 h5 h7 h8
  all_goals try (obtain ⟨hne, hs⟩ := hs)
  all_goals try split_ifs at hs
  all_goals try simp only [Option.some.injEq, reduceCtorEq] at hs
  all_goals try subst hs
  all_goals try simp only [system.slots] at ht
  all_goals try (constructor <;> simp <;> omega)

theorem consistent_unlock_and_lock_upgrade (g t : system) (hg : g.consistent)
    (hs : step g .unlock_and_lock_upgrade = some t) (ht : t.slots ≤ UINT_MAX) : t.consistent := by
  obtain ⟨h0, h1, h2, h3, h4, h5, h6, h7, h8⟩ := hg
  obtain ⟨⟨c, X, U, B⟩, r, u, x, w, lw, sw, uw⟩ := g
  simp only at h0 h1 h2 h3 h4 h5 h6 h7 h8
  subst h1
  have hi := incr_of_lt (r + u)
  have hd := decr_of_pos (r + u)
  cases X <;> cases U <;> cases B <;>
    simp [step, unlock_and_lock_upgrade] at hs h4 h5 h7 h8
  all_goals try (obtain ⟨hne, hs⟩ := hs)
  all_goals try subst hs
  all_goals try simp only [system.slots] at ht
  all_goals try (constructor <;> simp <;> omega)

theorem consistent_unlock_and_lock_shared (g t : system) (hg : g.consistent)
    (hs : step g .unlock_and_lock_shared = some t) (ht : t.slots ≤ UINT_MAX) : t.consistent := by
  obtain ⟨h0, h1, h2, h3, h4, h5, h6, h7, h8⟩ := hg
  obtain ⟨⟨c, X, U, B⟩, r, u, x, w, lw, sw, uw⟩ := g
  simp only at h0 h1 h2 h3 h4 h5 h6 h7 h8
  subst h1
  have hi := incr_of_lt (r + u)
  have hd := decr_of_pos (r + u)
  cases X <;> cases U <;> cases B <;>
    simp [step, unlock_and_lock_shared] at hs h4 h5 h7 h8
  all_goals try (obtain ⟨hne, hs⟩ := hs)
  all_goals try subst hs
  all_goals try simp only [system.slots] at ht
  all_goals try (constructor <;> simp <;> omega)

theorem consistent_try_unlock_shared_and_lock (g t : system) (hg : g.consistent)
    (hs : step g .try_unlock_shared_and_lock = some t) (ht : t.slots ≤ UINT_MAX) : t.consistent := by
  obtain ⟨h0, h1, h2, h3, h4, h5, h6, h7, h8⟩ := hg
  obtain ⟨⟨c, X, U, B⟩, r, u, x, w, lw, sw, uw⟩ := g
  simp only at h0 h1 h2 h3 h4 h5 h6 h7 h8
  subst h1
  have hi := incr_of_lt (r + u)
  have hd := decr_of_pos (r + u)
  cases X <;> cases U <;> cases B <;>
    simp [step, try_unlock_shared_and_lock] at hs h4 h5 h7 h8
  all_goals try (obtain ⟨hne, hs⟩ := hs)
  all_goals try split_ifs at hs
  all_goals try simp only [Option.some.injEq, reduceCtorEq] at hs
  all_goals try subst hs
  all_goals try simp only [system.slots] at ht
  all_goals try (constructor <;> simp <;> omega)

theorem consistent_unlock_upgrade_and_lock_shared (g t : system) (hg : g.consistent)
    (hs : step g .unlock_upgrade_and_lock_shared = some t) (ht : t.slots ≤ UINT_MAX) : t.consistent := by
  obtain ⟨h0, h1, h2, h3, h4, h5, h6, h7, h8⟩ := hg
  obtain ⟨⟨c, X, U, B⟩, r, u, x, w, lw, sw, uw⟩ := g
  simp only at h0 h1 h2 h3 h4 h5 h6 h7 h8
  subst h1
  have hi := incr_of_lt (r + u)
  have hd := decr_of_pos (r + u)
  cases X <;> cases U <;> cases B <;>
    simp [step, unlock_upgrade_and_lock_shared] at hs h4 h5 h7 h8
  all_goals try (obtain ⟨hne, hs⟩ := hs)
  all_goals try subst hs
  all_goals try simp only [system.slots] at ht
  all_goals try (constructor <;> simp <;> omega)

theorem consistent_step (g t : system) (e : event) (hg : g.consistent)
    (hs : step g e = some t) (ht : t.slots ≤ UINT_MAX) : t.consistent := by
  cases e
  · exact consistent_lock_shared g t hg hs ht
  · exact consistent_lock_shared_wake g t hg hs ht
  · exact consistent_try_lock_shared g t hg hs ht
  · exact consistent_unlock_shared g t hg hs ht
  · exact consistent_lock g t hg hs ht
  · exact consistent_lock_wake g t hg hs ht
  · exact consistent_try_lock g t hg hs ht
  · exact consistent_unlock g t hg hs ht
  · exact consistent_lock_upgrade g t hg hs ht
  · exact consistent_lock_upgrade_wake g t hg hs ht
  · exact consistent_try_lock_upgrade g t hg hs ht
  · exact consistent_unlock_upgrade g t hg hs ht
  · exact consistent_unlock_upgrade_and_lock g t hg hs ht
  · exact consistent_unlock_upgrade_and_lock_wake g t hg hs ht
  · exact consistent_unlock_and_lock_upgrade g t hg hs ht
  · exact consistent_unlock_and_lock_shared g t hg hs ht
  · exact consistent_try_unlock_shared_and_lock g t hg hs ht
  · exact consistent_unlock_upgrade_and_lock_shared g t hg hs ht

/-! ## Runs and reachability -/

theorem run_append (g : system) (es fs : List event) :
    run g (es ++ fs) = (run g es).bind fun t => run t fs := by
  induction es generalizing g with
  | nil => simp [run]
  | cons e es ih =>
    simp only [List.cons_append, run]
    cases step g e with
    | none => simp
    | some t => simpa using ih t

theorem reachable_run (g t : system) (es : List event) (hg : reachable g)
    (h : run g es = some t) : reachable t := by
  induction es generalizing g with
  | nil =>
    simp only [run, Option.some.injEq] at h
    exact h ▸ hg
  | cons e es ih =>
    simp only [run] at h
    cases hs : step g e with
    | none => simp [hs] at h
    | some m =>
      rw [hs] at h
      exact ih m (reachable.step g m e hg hs) h

theorem reachable_of_within (cap : Nat) (g : system) (h : reachable_within cap g) :
    reachable g := by
  induction h with
  | init => exact reachable.init
  | step g t e _ hs _ ih => exact reachable.step g t e ih hs

theorem consistent_of_reachable_within (g : system)
    (h : reachable_within UINT_MAX g) : g.consistent := by
  induction h with
  | init => exact consistent_init
  | step g t e _ hs ht ih => exact consistent_step g t e ih hs ht

/-- `n` calls of `lock_shared` in a row on a mutex that is neither held
exclusively nor closed for readers: all return, the counter advances by `n`
modulo `UINT_MOD`. -/
theorem run_lock_shared_replicate (n : Nat) (g : system)
    (hx : g.state.exclusive = false) (hb : g.state.exclusive_waiting_blocked = false)
    (hc : g.state.shared_count < UINT_MOD) :
    run g (List.replicate n .lock_shared) =
      some { g with
        state := { g.state with shared_count := (g.state.shared_count + n) % UINT_MOD }
        readers := g.readers + n } := by
  induction n generalizing g with
  | zero =>
    obtain ⟨⟨c, X, U, B⟩, r, u, x, w, lw, sw, uw⟩ := g
    simp only at hc
    simp [run, Nat.mod_eq_of_lt hc]
  | succ n ih =>
    obtain ⟨⟨c, X, U, B⟩, r, u, x, w, lw, sw, uw⟩ := g
    simp only at hx hb hc
    subst hx hb
    have h1 : incr c < UINT_MOD := by
      rw [incr_eq_mod c hc]
      exact Nat.mod_lt _ (by decide)
    have h2 : (incr c + n) % UINT_MOD = (c + (n + 1)) % UINT_MOD := by
      rw [incr_eq_mod c hc]
      unfold UINT_MOD
      omega
    simp only [List.replicate_succ, run, step, lock_shared, Bool.or_self, Bool.false_eq_true,
      ↓reduceIte, Option.some_bind]
    rw [ih _ rfl rfl h1]
    simp only [h2]
    congr 2
    omega

theorem reachable_within_run (cap : Nat) (g t : system) (es : List event)
    (hg : reachable_within cap g) (h : run_within cap g es = some t) :
    reachable_within cap t := by
  induction es generalizing g with
  | nil =>
    simp only [run_within, Option.some.injEq] at h
    exact h ▸ hg
  | cons e es ih =>
    simp only [run_within] at h
    cases hs : step g e with
    | none => simp [hs] at h
    | some m =>
      rw [hs] at h
      simp only [Option.some_bind] at h
      split at h
      · next hm => exact ih m (reachable_within.step g m e hg hs hm) h
      · simp at h

theorem run_cons (g : system) (e : event) (es : List event) :
    run g (e :: es) = (step g e).bind fun t => run t es := rfl

theorem run_wrapped :
    run system.init (.lock_upgrade :: List.replicate UINT_MAX .lock_shared) = some wrapped := by
  have h := run_lock_shared_replicate UINT_MAX
    { state := { shared_count := 1, exclusive := false, upgrade := true,
                 exclusive_waiting_blocked := false },
      readers := 0, upgraders := 1, writers := 0, upgrading := 0,
      lock_waiters := 0, shared_waiters := 0, upgrade_waiters := 0 }
    rfl rfl (by decide)
  have h0 : step system.init .lock_upgrade = some
    { state := { shared_count := 1, exclusive := false, upgrade := true,
                 exclusive_waiting_blocked := false },
      readers := 0, upgraders := 1, writers := 0, upgrading := 0,
      lock_waiters := 0, shared_waiters := 0, upgrade_waiters := 0 } := by decide
  rw [run_cons, h0, Option.some_bind, h]
  decide

theorem reachable_wrapped : reachable wrapped :=
  reachable_run system.init wrapped _ reachable.init run_wrapped

/-! ## C1: mutual exclusion -/

/-- C1, as stated, fails: after `lock_upgrade` and `UINT_MAX` calls of
`lock_shared` the 32-bit counter is back at `0`, `try_lock` succeeds, and the
reachable state has `exclusive` and `upgrade` both set. -/
theorem mutual_exclusion_counterexample :
    run system.init
        (.lock_upgrade :: List.replicate UINT_MAX .lock_shared ++ [.try_lock])
      = some wrapped_exclusive ∧
    reachable wrapped_exclusive ∧
    wrapped_exclusive.state.exclusive = true ∧
    wrapped_exclusive.state.upgrade = true ∧
    ¬ ∀ g : system, reachable g → g.state.exclusive = true →
        g.state.shared_count = 0 ∧ g.state.upgrade = false := by
  have hrun : run system.init
      (.lock_upgrade :: List.replicate UINT_MAX .lock_shared ++ [.try_lock])
      = some wrapped_exclusive := by
    rw [run_append, run_wrapped]
    decide
  have hr : reachable wrapped_exclusive := reachable_run _ _ _ reachable.init hrun
  refine ⟨hrun, hr, rfl, rfl, fun h => ?_⟩
  have := (h wrapped_exclusive hr rfl).2
  simp [wrapped_exclusive] at this

/-- C1, amended: in every state reachable from the initial state by runs in
which at most `UINT_MAX` shared slots are in use at any time (each release,
downgrade or upgrade step taken by a thread holding that access, blocking
operations split into wait and proceed steps), `exclusive = true` implies
`shared_count = 0` and `upgrade = false`. -/
theorem mutual_exclusion (g : system) (h : reachable_within UINT_MAX g)
    (hx : g.state.exclusive = true) :
    g.state.shared_count = 0 ∧ g.state.upgrade = false := by
  obtain ⟨_, h1, h2, _, h4, h5, h6, h7, _⟩ := consistent_of_reachable_within g h
  rcases h4.mp hx with hw | ⟨hw, hu⟩
  · obtain ⟨hr, hu, hg⟩ := h6 hw
    refine ⟨by omega, ?_⟩
    cases hup : g.state.upgrade with
    | false => rfl
    | true =>
      rcases h5.mp hup with h | ⟨h, -⟩ <;> omega
  · exact ⟨by have := h7 hw hx; omega, hu⟩

/-- C1, witness: the hand-over state, in which `unlock_shared` of the last reader
has set `exclusive` for the thread suspended inside `unlock_upgrade_and_lock`. -/
theorem mutual_exclusion_witness :
    handed_over.state.shared_count = 0 ∧ handed_over.state.upgrade = false :=
  mutual_exclusion handed_over
    (reachable_within_run UINT_MAX system.init handed_over
      [.lock_shared, .lock_upgrade, .unlock_upgrade_and_lock, .unlock_shared]
      reachable_within.init (by decide))
    (by decide)

/-! ## C2: the upgrade flag and the counter -/

/-- C2, as stated, fails: after `lock_upgrade` and `UINT_MAX` calls of
`lock_shared`, all returning, no thread is inside the mutex, `upgrade` is set
and the 32-bit counter is `0`. -/
theorem upgrade_slot_counterexample :
    run system.init (.lock_upgrade :: List.replicate UINT_MAX .lock_shared)
      = some wrapped ∧
    reachable wrapped ∧
    wrapped.state.upgrade = true ∧
    wrapped.state.shared_count = 0 ∧
    ¬ ∀ g : system, reachable g → g.state.upgrade = true → 1 ≤ g.state.shared_count := by
  refine ⟨run_wrapped, reachable_wrapped, rfl, rfl, fun h => ?_⟩
  have := h wrapped reachable_wrapped rfl
  simp [wrapped] at this

/-- C2, amended: in every state reachable by runs in which at most `UINT_MAX`
shared slots are in use at any time, observed between two atomic sections
(also while the upgrade holder is suspended inside `unlock_upgrade_and_lock`
after giving up its own slot), `upgrade = true` implies `shared_count ≥ 1`. -/
theorem upgrade_slot (g : system) (h : reachable_within UINT_MAX g)
    (hu : g.state.upgrade = true) : 1 ≤ g.state.shared_count := by
  obtain ⟨_, h1, _, _, _, h5, _, _, h8⟩ := consistent_of_reachable_within g h
  rcases h5.mp hu with hup | ⟨hw, hx⟩
  · omega
  · have := h8 hw hx
    omega

/-- C2, witness: the upgrade holder is suspended inside
`unlock_upgrade_and_lock`, one reader is left. -/
theorem upgrade_slot_witness : 1 ≤ upgrader_suspended.state.shared_count :=
  upgrade_slot upgrader_suspended
    (reachable_within_run UINT_MAX system.init upgrader_suspended
      [.lock_shared, .lock_upgrade, .unlock_upgrade_and_lock]
      reachable_within.init (by decide))
    (by decide)

/-! ## C3: a single upgrade holder -/

/-- C3, as stated, fails: once the 32-bit counter has wrapped to `0` under an
upgrade holder, `try_lock` succeeds and `unlock_and_lock_upgrade` makes the
writer a second upgrade holder. -/
theorem single_upgrade_counterexample :
    run system.init
        (.lock_upgrade :: List.replicate UINT_MAX .lock_shared
          ++ [.try_lock, .unlock_and_lock_upgrade])
      = some wrapped_two_upgraders ∧
    reachable wrapped_two_upgraders ∧
    wrapped_two_upgraders.upgraders + wrapped_two_upgraders.upgrading = 2 ∧
    ¬ ∀ g : system, reachable g → g.upgraders + g.upgrading ≤ 1 := by
  have hrun : run system.init
      (.lock_upgrade :: List.replicate UINT_MAX .lock_shared
        ++ [.try_lock, .unlock_and_lock_upgrade])
      = some wrapped_two_upgraders := by
    rw [run_append, run_wrapped]
    decide
  have hr : reachable wrapped_two_upgraders := reachable_run _ _ _ reachable.init hrun
  refine ⟨hrun, hr, rfl, fun h => ?_⟩
  have := h wrapped_two_upgraders hr
  simp [wrapped_two_upgraders] at this

/-- C3, amended: in every state reachable by runs in which at most `UINT_MAX`
shared slots are in use at any time, at most one thread holds upgrade status
(counting the threads that succeeded in `lock_upgrade`, `try_lock_upgrade` or
`unlock_and_lock_upgrade` and have neither called `unlock_upgrade` or
`unlock_upgrade_and_lock_shared` nor completed `unlock_upgrade_and_lock`); and
in any state with `upgrade` set, `lock_upgrade` waits and `try_lock_upgrade`
returns false, both leaving the state as it is. -/
theorem single_upgrade (g : system) (h : reachable_within UINT_MAX g) :
    g.upgraders + g.upgrading ≤ 1 ∧
    ∀ s : state_data, s.upgrade = true →
      lock_upgrade s = .suspended s ∧ try_lock_upgrade s = (false, s) := by
  refine ⟨(consistent_of_reachable_within g h).one_upgrade, fun s hs => ?_⟩
  simp [lock_upgrade, try_lock_upgrade, hs]

/-- C3, witness: one reader and the upgrade holder suspended inside
`unlock_upgrade_and_lock`; a further `lock_upgrade` has to wait. -/
theorem single_upgrade_witness :
    upgrader_suspended.upgraders + upgrader_suspended.upgrading ≤ 1 ∧
    lock_upgrade upgrader_suspended.state = .suspended upgrader_suspended.state ∧
    try_lock_upgrade upgrader_suspended.state = (false, upgrader_suspended.state) :=
  have h := single_upgrade upgrader_suspended
    (reachable_within_run UINT_MAX system.init upgrader_suspended
      [.lock_shared, .lock_upgrade, .unlock_upgrade_and_lock]
      reachable_within.init (by decide))
  ⟨h.1, h.2 upgrader_suspended.state (by decide)⟩

/-! ## C4: writer priority -/

/-- C5, as stated, fails: thread A has called `lock_upgrade` and still holds
upgrade access, `UINT_MAX` readers have come in after it, and `try_lock` of
another thread returns true, because the 32-bit counter is back at `0`. -/
theorem upgrade_atomicity_counterexample :
    run system.init (.lock_upgrade :: List.replicate UINT_MAX .lock_shared)
      = some wrapped ∧
    reachable wrapped ∧
    wrapped.upgraders = 1 ∧
    (try_lock wrapped.state).1 = true ∧
    ¬ ∀ g : system, reachable g → 1 ≤ g.upgraders + g.upgrading →
        (try_lock g.state).1 = false := by
  refine ⟨run_wrapped, reachable_wrapped, rfl, by decide, fun h => ?_⟩
  have := h wrapped reachable_wrapped (by decide)
  revert this
  decide

/-- C5, amended: in every state reachable by runs in which at most `UINT_MAX`
shared slots are in use at any time:
* while some thread holds upgrade status (also suspended inside
  `unlock_upgrade_and_lock`), `try_lock` returns false and changes nothing;
* `unlock_upgrade_and_lock` completes, at once or after a wake-up, only into a
  state without any shared holder, and sets `exclusive`;
* while a thread holds exclusive access, `try_lock_shared` returns false and
  changes nothing, and right after its `unlock` it returns true.
The run from the initial state: `lock_upgrade`; `try_lock` is false;
`unlock_upgrade_and_lock`; `try_lock_shared` is false; `unlock`;
`try_lock_shared` is true. -/
theorem upgrade_atomicity (g : system) (h : reachable_within UINT_MAX g) :
    (1 ≤ g.upgraders + g.upgrading → try_lock g.state = (false, g.state)) ∧
    (∀ t : system,
      (step g .unlock_upgrade_and_lock = some t ∨
        step g .unlock_upgrade_and_lock_wake = some t) →
      t.writers = g.writers + 1 →
      t.readers = 0 ∧ t.upgraders = 0 ∧ t.state.shared_count = 0 ∧
        t.state.exclusive = true ∧ t.state.upgrade = false) ∧
    (1 ≤ g.writers →
      try_lock_shared g.state = (false, g.state) ∧
      (try_lock_shared (unlock g.state)).1 = true) ∧
    (lock_upgrade initial = .acquired
        { shared_count := 1, exclusive := false, upgrade := true,
          exclusive_waiting_blocked := false } ∧
      (try_lock { shared_count := 1, exclusive := false, upgrade := true,
                  exclusive_waiting_blocked := false }).1 = false ∧
      unlock_upgrade_and_lock
          { shared_count := 1, exclusive := false, upgrade := true,
            exclusive_waiting_blocked := false } = .acquired
        { shared_count := 0, exclusive := true, upgrade := false,
          exclusive_waiting_blocked := false } ∧
      (try_lock_shared { shared_count := 0, exclusive := true, upgrade := false,
                         exclusive_waiting_blocked := false }).1 = false ∧
      unlock { shared_count := 0, exclusive := true, upgrade := false,
               exclusive_waiting_blocked := false } = initial ∧
      (try_lock_shared initial).1 = true) := by
  obtain ⟨h0, h1, h2, h3, h4, h5, h6, h7, h8⟩ := consistent_of_reachable_within g h
  obtain ⟨⟨c, X, U, B⟩, r, u, x, w, lw, sw, uw⟩ := g
  simp only at h0 h1 h2 h3 h4 h5 h6 h7 h8
  subst h1
  have hd := decr_of_pos (r + u)
  refine ⟨?_, ?_, ?_, by decide⟩
  · intro hup
    simp only at hup
    cases X <;> cases U <;> simp [try_lock] at h4 h5 h7 h8 ⊢ <;> omega
  · intro t ht hw
    rcases ht with ht | ht
    · cases X <;> cases U <;>
        simp [step, unlock_upgrade_and_lock, unlock_upgrade_and_lock_loop] at ht h4 h5 h7 h8
      all_goals obtain ⟨hne, ht⟩ := ht
      all_goals split_ifs at ht
      all_goals simp only [Option.some.injEq] at ht
      all_goals subst ht
      all_goals simp at hw ⊢
      all_goals omega
    · cases X <;> cases U <;>
        simp [step, unlock_upgrade_and_lock_loop] at ht h4 h5 h7 h8
      all_goals obtain ⟨hne, ht⟩ := ht
      all_goals split_ifs at ht
      all_goals simp only [Option.some.injEq] at ht
      all_goals subst ht
      all_goals simp at hw ⊢
      all_goals omega
  · intro hwr
    simp only at hwr
    cases X <;> cases U <;> simp [try_lock_shared, unlock] at h4 h5 h7 h8 ⊢ <;> omega

/-- C5, witness: one upgrade holder among two readers. -/
theorem upgrade_atomicity_witness :
    try_lock upgrader_and_readers.state = (false, upgrader_and_readers.state) :=
  (upgrade_atomicity upgrader_and_readers
    (reachable_within_run UINT_MAX system.init upgrader_and_readers
      [.lock_shared, .lock_upgrade, .lock_shared]
      reachable_within.init (by decide))).1 (by decide)

/-- `n` calls of `unlock_shared` in a row, none of which frees the last slot:
only the counter changes. -/
theorem run_unlock_shared_replicate (n : Nat) (g : system)
    (hn : n < g.state.shared_count) (hr : n ≤ g.readers) :
    run g (List.replicate n .unlock_shared) =
      some { g with
        state := { g.state with shared_count := g.state.shared_count - n }
        readers := g.readers - n } := by
  induction n generalizing g with
  | zero => simp [run]
  | succ n ih =>
    obtain ⟨⟨c, X, U, B⟩, r, u, x, w, lw, sw, uw⟩ := g
    simp only at hn hr
    have hd : decr c = c - 1 := decr_of_pos c (by omega)
    have hr0 : r ≠ 0 := by omega
    have hc0 : c - 1 ≠ 0 := by omega
    rw [List.replicate_succ, run_cons]
    simp only [step, hr0, ↓reduceIte, unlock_shared, hd, beq_iff_eq, hc0, Option.some_bind]
    rw [ih _ (by simp only; omega) (by simp only; omega)]
    simp only [Option.some.injEq, system.mk.injEq, state_data.mk.injEq, and_true, true_and]
    omega

theorem run_n_readers (n : Nat) (h : n ≤ UINT_MAX) :
    run system.init (List.replicate n .lock_shared) = some (n_readers n) := by
  rw [run_lock_shared_replicate n system.init rfl rfl (by decide)]
  have : n % UINT_MOD = n := by
    unfold UINT_MOD
    unfold UINT_MAX at h
    omega
  simp [system.init, initial, n_readers, this]

theorem run_n_readers_back (n : Nat) :
    run (n_readers n) (List.replicate n .unlock_shared) = some system.init := by
  cases n with
  | zero => rfl
  | succ n =>
    rw [List.replicate_succ', run_append,
      run_unlock_shared_replicate n (n_readers (n + 1)) (by simp [n_readers])
        (by simp [n_readers])]
    simp only [n_readers, Nat.add_sub_cancel_left, Option.some_bind]
    decide

/-! ## C6: readers, then a writer -/

/-- C6, as stated, fails for `n = UINT_MOD`: after `UINT_MOD` calls of
`lock_shared`, all returning, the counter is `0` and not `n`, and `try_lock`
returns true. -/
theorem readers_then_writer_counterexample :
    run system.init (List.replicate UINT_MOD .lock_shared) = some wrapped_readers ∧
    wrapped_readers.state.shared_count = 0 ∧
    (try_lock wrapped_readers.state).1 = true ∧
    ¬ ∀ n : Nat, 1 ≤ n →
        ∃ g : system, run system.init (List.replicate n .lock_shared) = some g ∧
          g.state.shared_count = n ∧ (try_lock g.state).1 = false := by
  have hrun : run system.init (List.replicate UINT_MOD .lock_shared)
      = some wrapped_readers := by
    rw [run_lock_shared_replicate UINT_MOD system.init rfl rfl (by decide)]
    decide
  refine ⟨hrun, rfl, by decide, fun h => ?_⟩
  obtain ⟨g, hg, hc, -⟩ := h UINT_MOD (by decide)
  rw [hrun, Option.some.injEq] at hg
  subst hg
  revert hc
  decide

/-- C6, amended: for every `n` with `1 ≤ n ≤ UINT_MAX`, from the initial
state: `n` calls of `lock_shared` all return and give `shared_count = n`;
`try_lock` then returns false and changes nothing; after `n` calls of
`unlock_shared` the mutex is in its initial state, where `lock` returns at once
and sets `exclusive`; `try_lock_shared` then returns false, and returns true
after `unlock`. -/
theorem readers_then_writer (n : Nat) (h1 : 1 ≤ n) (h2 : n ≤ UINT_MAX) :
    run system.init (List.replicate n .lock_shared) = some (n_readers n) ∧
    (n_readers n).state.shared_count = n ∧
    try_lock (n_readers n).state = (false, (n_readers n).state) ∧
    run (n_readers n) (List.replicate n .unlock_shared) = some system.init ∧
    lock system.init.state = .acquired held_exclusive ∧
    try_lock_shared held_exclusive = (false, held_exclusive) ∧
    (try_lock_shared (unlock held_exclusive)).1 = true := by
  refine ⟨run_n_readers n h2, rfl, ?_, run_n_readers_back n, by decide, by decide, by decide⟩
  have : n ≠ 0 := by omega
  simp [try_lock, n_readers, this]

/-- C6, witness: the scenario with three readers. -/
theorem readers_then_writer_witness :
    run system.init (List.replicate 3 .lock_shared) = some (n_readers 3) ∧
    (n_readers 3).state.shared_count = 3 ∧
    try_lock (n_readers 3).state = (false, (n_readers 3).state) ∧
    run (n_readers 3) (List.replicate 3 .unlock_shared) = some system.init ∧
    lock system.init.state = .acquired held_exclusive ∧
    try_lock_shared held_exclusive = (false, held_exclusive) ∧
    (try_lock_shared (unlock held_exclusive)).1 = true :=
  readers_then_writer 3 (by decide) (by decide)

/-! ## C7: round trips of a reader -/

theorem run_round_trips (n : Nat) : run system.init (round_trips n) = some system.init := by
  induction n with
  | zero => rfl
  | succ n ih =>
    have h : run system.init [.lock_shared, .unlock_shared] = some system.init := by decide
    have hl : round_trips (n + 1) = [.lock_shared, .unlock_shared] ++ round_trips n := rfl
    rw [hl, run_append, h, Option.some_bind, ih]

/-- C7: for every `N`, the pair `lock_shared; unlock_shared` performed `N` times
from the initial state ends in the initial state, ghost counters included: no
call of `lock_shared` in the run has waited.  In the initial state `lock_shared`
returns at once with `shared_count = 1` and `unlock_shared` brings that state
back to the initial one. -/
theorem round_trip_symmetry (N : Nat) :
    run system.init (round_trips N) = some system.init ∧
    system.init.state = { shared_count := 0, exclusive := false, upgrade := false,
                          exclusive_waiting_blocked := false } ∧
    system.init.shared_waiters = 0 ∧
    (lock_shared initial).proceeds = true ∧
    unlock_shared (lock_shared initial).state = initial :=
  ⟨run_round_trips N, rfl, rfl, by decide, by decide⟩

/-! ## C8: the last reader and a waiting writer -/

theorem run_wrapped_last_reader :
    run system.init
        (List.replicate UINT_MOD .lock_shared ++ [.try_lock, .lock, .unlock_shared]
          ++ List.replicate (UINT_MAX - 1) .unlock_shared)
      = some wrapped_last_reader := by
  have h1 : run system.init (List.replicate UINT_MOD .lock_shared)
      = some wrapped_readers := by
    rw [run_lock_shared_replicate UINT_MOD system.init rfl rfl (by decide)]
    decide
  have h2 : run wrapped_readers [.try_lock, .lock, .unlock_shared] = some
      { state := { shared_count := UINT_MAX, exclusive := true, upgrade := false,
                   exclusive_waiting_blocked := true },
        readers := UINT_MAX, upgraders := 0, writers := 1, upgrading := 0,
        lock_waiters := 1, shared_waiters := 0, upgrade_waiters := 0 } := by
    decide
  rw [run_append, run_append, h1, Option.some_bind, h2, Option.some_bind,
    run_unlock_shared_replicate (UINT_MAX - 1) _ (by decide) (by decide)]
  decide

/-- C8, as stated, fails: `UINT_MOD` readers wrap the 32-bit counter to `0`,
`try_lock` succeeds next to them, a thread calls `lock` and waits, and all
readers but one call `unlock_shared`.  In this reachable state a thread waits
in `lock`, no upgrade is pending and exactly one shared holder is left; after
its `unlock_shared` the counter is `0` but `exclusive` is true, and the waiting
thread has to wait again. -/
theorem last_reader_counterexample :
    reachable wrapped_last_reader ∧
    wrapped_last_reader.lock_waiters = 1 ∧
    wrapped_last_reader.upgraders + wrapped_last_reader.upgrading = 0 ∧
    wrapped_last_reader.state.upgrade = false ∧
    wrapped_last_reader.readers = 1 ∧
    (unlock_shared wrapped_last_reader.state).exclusive = true ∧
    (lock (unlock_shared wrapped_last_reader.state)).proceeds = false ∧
    ¬ ∀ g : system, reachable g → 1 ≤ g.lock_waiters →
        g.upgraders + g.upgrading = 0 → g.state.upgrade = false → g.readers = 1 →
        (unlock_shared g.state).shared_count = 0 ∧
        (unlock_shared g.state).exclusive = false ∧
        (lock (unlock_shared g.state)).proceeds = true := by
  have hr : reachable wrapped_last_reader :=
    reachable_run _ _ _ reachable.init run_wrapped_last_reader
  refine ⟨hr, rfl, rfl, rfl, rfl, by decide, by decide, fun h => ?_⟩
  have := (h wrapped_last_reader hr (by decide) rfl rfl rfl).2.1
  revert this
  decide

/-- C8, amended: in every state reachable by runs in which at most `UINT_MAX`
shared slots are in use at any time, if a thread is waiting in `lock`, no
thread holds upgrade status and exactly one shared holder is left, then after
that holder's `unlock_shared` the state has `shared_count = 0` and
`exclusive = false`, so the waiting thread, running its loop test again with no
other event in between, leaves the loop and sets `exclusive`. -/
theorem last_reader (g : system) (h : reachable_within UINT_MAX g)
    (hw : 1 ≤ g.lock_waiters) (hu : g.upgraders + g.upgrading = 0)
    (hr : g.readers = 1) :
    (unlock_shared g.state).shared_count = 0 ∧
    (unlock_shared g.state).exclusive = false ∧
    lock (unlock_shared g.state) =
      .acquired { unlock_shared g.state with exclusive := true } ∧
    ∃ t t' : system,
      step g .unlock_shared = some t ∧ step t .lock_wake = some t' ∧
      t'.state.exclusive = true ∧ t'.state.shared_count = 0 ∧
      t'.writers = g.writers + 1 ∧ t'.lock_waiters + 1 = g.lock_waiters := by
  obtain ⟨h0, h1, h2, h3, h4, h5, h6, h7, h8⟩ := consistent_of_reachable_within g h
  obtain ⟨⟨c, X, U, B⟩, r, u, x, w, lw, sw, uw⟩ := g
  simp only at h0 h1 h2 h3 h4 h5 h6 h7 h8 hw hu hr
  subst h1
  obtain ⟨rfl, rfl⟩ : u = 0 ∧ w = 0 := by omega
  subst hr
  have hlw : lw ≠ 0 := by omega
  cases X <;> cases U <;> simp at h4 h5
  · simp [unlock_shared, lock, step, decr, hlw]
    omega
  · omega

/-- C8, witness: the last of two readers while a writer waits. -/
theorem last_reader_witness :
    (unlock_shared one_reader_writer_waiting.state).shared_count = 0 ∧
    (unlock_shared one_reader_writer_waiting.state).exclusive = false ∧
    lock (unlock_shared one_reader_writer_waiting.state) =
      .acquired { unlock_shared one_reader_writer_waiting.state with exclusive := true } ∧
    ∃ t t' : system,
      step one_reader_writer_waiting .unlock_shared = some t ∧
      step t .lock_wake = some t' ∧
      t'.state.exclusive = true ∧ t'.state.shared_count = 0 ∧
      t'.writers = one_reader_writer_waiting.writers + 1 ∧
      t'.lock_waiters + 1 = one_reader_writer_waiting.lock_waiters :=
  last_reader one_reader_writer_waiting
    (reachable_within_run UINT_MAX system.init one_reader_writer_waiting
      [.lock_shared, .lock_shared, .lock, .lock_shared, .unlock_shared]
      reachable_within.init (by decide))
    (by decide) (by decide) (by decide)

/-! ## C9: `try_lock_shared` -/

/-- C9, as stated, fails at `shared_count = UINT_MAX` with no flag set:
`try_lock_shared` returns true and the counter of the resulting state is `0`,
not `UINT_MAX + 1`. -/
theorem try_lock_shared_counterexample :
    (try_lock_shared full_count).1 = true ∧
    (try_lock_shared full_count).2.shared_count = 0 ∧
    ¬ ∀ s : state_data, (try_lock_shared s).1 = true →
        (try_lock_shared s).2.shared_count = s.shared_count + 1 := by
  refine ⟨by decide, by decide, fun h => ?_⟩
  have := h full_count (by decide)
  revert this
  decide

/-- C9, amended: for every state `s`, `try_lock_shared` returns true exactly
when `exclusive` and `exclusive_waiting_blocked` are both false, which is also
exactly when `lock_shared` returns without waiting; when it returns true the
resulting state is the one `lock_shared` produces, `exclusive`, `upgrade` and
`exclusive_waiting_blocked` are unchanged, and `shared_count` is larger by
exactly 1 if it was below `UINT_MAX` and is `0` if it was `UINT_MAX`. -/
theorem try_lock_shared_spec (s : state_data) :
    ((try_lock_shared s).1 = true ↔
      s.exclusive = false ∧ s.exclusive_waiting_blocked = false) ∧
    ((lock_shared s).proceeds = true ↔
      s.exclusive = false ∧ s.exclusive_waiting_blocked = false) ∧
    ((try_lock_shared s).1 = true →
      lock_shared s = .acquired (try_lock_shared s).2 ∧
      (try_lock_shared s).2.exclusive = s.exclusive ∧
      (try_lock_shared s).2.upgrade = s.upgrade ∧
      (try_lock_shared s).2.exclusive_waiting_blocked = s.exclusive_waiting_blocked ∧
      (s.shared_count < UINT_MAX →
        (try_lock_shared s).2.shared_count = s.shared_count + 1) ∧
      (s.shared_count = UINT_MAX → (try_lock_shared s).2.shared_count = 0)) := by
  obtain ⟨c, X, U, B⟩ := s
  cases X <;> cases B <;>
    simp [try_lock_shared, lock_shared, blocking.proceeds, incr]
  intro h
  omega

/-- C9, witness: two readers hold the mutex, a third one tries. -/
theorem try_lock_shared_spec_witness :
    lock_shared two_readers.state = .acquired (try_lock_shared two_readers.state).2 ∧
    (try_lock_shared two_readers.state).2.shared_count = 2 + 1 :=
  have h := (try_lock_shared_spec two_readers.state).2.2 (by decide)
  ⟨h.1, h.2.2.2.2.1 (by decide)⟩

/-! ## C10: `try_lock` -/

/-- C10: for every state `s`, `try_lock` returns true exactly when
`shared_count = 0` and `exclusive = false`, whatever `exclusive_waiting_blocked`
and `upgrade` are, and that is exactly when `lock` returns without waiting;
when it returns true the resulting state is `s` with `exclusive` set and nothing
else changed, which is the state `lock` produces. -/
theorem try_lock_spec (s : state_data) :
    ((try_lock s).1 = true ↔ s.shared_count = 0 ∧ s.exclusive = false) ∧
    ((lock s).proceeds = true ↔ s.shared_count = 0 ∧ s.exclusive = false) ∧
    (∀ u b : Bool,
      (try_lock { s with upgrade := u, exclusive_waiting_blocked := b }).1
        = (try_lock s).1) ∧
    ((try_lock s).1 = true →
      (try_lock s).2 = { s with exclusive := true } ∧
      (try_lock s).2.shared_count = s.shared_count ∧
      (try_lock s).2.upgrade = s.upgrade ∧
      (try_lock s).2.exclusive_waiting_blocked = s.exclusive_waiting_blocked ∧
      lock s = .acquired (try_lock s).2) := by
  obtain ⟨c, X, U, B⟩ := s
  cases X <;> simp [try_lock, lock, blocking.proceeds]
  by_cases hc : c = 0 <;> simp [hc]

/-- C10, witness: the initial state, where `try_lock` succeeds. -/
theorem try_lock_spec_witness :
    (try_lock initial).2 = { initial with exclusive := true } ∧
    lock initial = .acquired (try_lock initial).2 :=
  have h := (try_lock_spec initial).2.2.2 (by decide)
  ⟨h.1, h.2.2.2.2⟩

/-! ## C11: `try_lock_upgrade` -/

/-- C11, as stated, fails at `shared_count = UINT_MAX` with no flag set:
`try_lock_upgrade` returns true and the counter of the resulting state is `0`,
not `UINT_MAX + 1`. -/
theorem try_lock_upgrade_counterexample :
    (try_lock_upgrade full_count).1 = true ∧
    (try_lock_upgrade full_count).2.shared_count = 0 ∧
    ¬ ∀ s : state_data, (try_lock_upgrade s).1 = true →
        (try_lock_upgrade s).2.shared_count = s.shared_count + 1 := by
  refine ⟨by decide, by decide, fun h => ?_⟩
  have := h full_count (by decide)
  revert this
  decide

/-- C11, amended: for every state `s`, `try_lock_upgrade` returns true exactly
when `exclusive`, `exclusive_waiting_blocked` and `upgrade` are all false, which
is also exactly when `lock_upgrade` returns without waiting; when it returns
true the resulting state is the one `lock_upgrade` produces, `upgrade` is set,
`exclusive` and `exclusive_waiting_blocked` are unchanged, and `shared_count` is
larger by exactly 1 if it was below `UINT_MAX` and is `0` if it was
`UINT_MAX`. -/
theorem try_lock_upgrade_spec (s : state_data) :
    ((try_lock_upgrade s).1 = true ↔
      s.exclusive = false ∧ s.exclusive_waiting_blocked = false ∧ s.upgrade = false) ∧
    ((lock_upgrade s).proceeds = true ↔
      s.exclusive = false ∧ s.exclusive_waiting_blocked = false ∧ s.upgrade = false) ∧
    ((try_lock_upgrade s).1 = true →
      lock_upgrade s = .acquired (try_lock_upgrade s).2 ∧
      (try_lock_upgrade s).2.upgrade = true ∧
      (try_lock_upgrade s).2.exclusive = s.exclusive ∧
      (try_lock_upgrade s).2.exclusive_waiting_blocked = s.exclusive_waiting_blocked ∧
      (s.shared_count < UINT_MAX →
        (try_lock_upgrade s).2.shared_count = s.shared_count + 1) ∧
      (s.shared_count = UINT_MAX → (try_lock_upgrade s).2.shared_count = 0)) := by
  obtain ⟨c, X, U, B⟩ := s
  cases X <;> cases B <;> cases U <;>
    simp [try_lock_upgrade, lock_upgrade, blocking.proceeds, incr]
  intro h
  omega

/-- C11, witness: two readers hold the mutex, a third thread tries to get
upgrade access. -/
theorem try_lock_upgrade_spec_witness :
    lock_upgrade two_readers.state = .acquired (try_lock_upgrade two_readers.state).2 ∧
    (try_lock_upgrade two_readers.state).2.upgrade = true ∧
    (try_lock_upgrade two_readers.state).2.shared_count = 2 + 1 :=
  have h := (try_lock_upgrade_spec two_readers.state).2.2 (by decide)
  ⟨h.1, h.2.1, h.2.2.2.2.1 (by decide)⟩

/-! ## C12: `try_unlock_shared_and_lock` -/

/-- C12: for every state `s`, `try_unlock_shared_and_lock` returns true exactly
when `shared_count = 1` and `exclusive`, `exclusive_waiting_blocked` and
`upgrade` are all false; when it returns true the resulting state is
`shared_count = 0`, `exclusive = true`, `upgrade = false`,
`exclusive_waiting_blocked = false`. -/
theorem try_unlock_shared_and_lock_spec (s : state_data) :
    ((try_unlock_shared_and_lock s).1 = true ↔
      s.shared_count = 1 ∧ s.exclusive = false ∧
      s.exclusive_waiting_blocked = false ∧ s.upgrade = false) ∧
    ((try_unlock_shared_and_lock s).1 = true →
      (try_unlock_shared_and_lock s).2 =
        { shared_count := 0, exclusive := true, upgrade := false,
          exclusive_waiting_blocked := false }) := by
  obtain ⟨c, X, U, B⟩ := s
  cases X <;> cases B <;> cases U <;> simp [try_unlock_shared_and_lock]
  by_cases hc : c = 1 <;> simp [hc]

/-- C12, witness: the only reader converts its access. -/
theorem try_unlock_shared_and_lock_spec_witness :
    (try_unlock_shared_and_lock sole_reader).2 =
      { shared_count := 0, exclusive := true, upgrade := false,
        exclusive_waiting_blocked := false } :=
  (try_unlock_shared_and_lock_spec sole_reader).2 (by decide)

/-! ## C13: failure of the `try_` functions -/

/-- C13: each of `try_lock_shared`, `try_lock`, `try_lock_upgrade` and
`try_unlock_shared_and_lock` gives, in every state, a boolean and a state (there
is no wait step and no error result), and when the boolean is false the state
is the one before the call.  A failed `try_lock` leaves
`exclusive_waiting_blocked` as it was, whereas `lock` in the same state reaches
`wait` with `exclusive_waiting_blocked` set. -/
theorem try_failure_atomic (s : state_data) :
    (∃ (b : Bool) (t : state_data), try_lock_shared s = (b, t)) ∧
    (∃ (b : Bool) (t : state_data), try_lock s = (b, t)) ∧
    (∃ (b : Bool) (t : state_data), try_lock_upgrade s = (b, t)) ∧
    (∃ (b : Bool) (t : state_data), try_unlock_shared_and_lock s = (b, t)) ∧
    ((try_lock_shared s).1 = false → (try_lock_shared s).2 = s) ∧
    ((try_lock s).1 = false → (try_lock s).2 = s) ∧
    ((try_lock_upgrade s).1 = false → (try_lock_upgrade s).2 = s) ∧
    ((try_unlock_shared_and_lock s).1 = false → (try_unlock_shared_and_lock s).2 = s) ∧
    ((try_lock s).1 = false →
      (try_lock s).2.exclusive_waiting_blocked = s.exclusive_waiting_blocked ∧
      lock s = .suspended { s with exclusive_waiting_blocked := true }) := by
  refine ⟨⟨_, _, rfl⟩, ⟨_, _, rfl⟩, ⟨_, _, rfl⟩, ⟨_, _, rfl⟩, ?_, ?_, ?_, ?_, ?_⟩
  · unfold try_lock_shared
    split <;> simp
  · unfold try_lock
    split <;> simp
  · unfold try_lock_upgrade
    split <;> simp
  · unfold try_unlock_shared_and_lock
    split <;> simp
  · unfold try_lock lock
    split <;> simp

/-- C13, witness: two readers hold the mutex; `try_lock` fails and changes
nothing, `lock` would wait with `exclusive_waiting_blocked` set. -/
theorem try_failure_atomic_witness :
    (try_lock two_readers.state).2 = two_readers.state ∧
    (try_lock two_readers.state).2.exclusive_waiting_blocked = false ∧
    lock two_readers.state = .suspended two_readers_writer_waiting.state :=
  have h := try_failure_atomic two_readers.state
  ⟨h.2.2.2.2.2.1 (by decide), (h.2.2.2.2.2.2.2.2 (by decide)).1,
    (h.2.2.2.2.2.2.2.2 (by decide)).2⟩

/-! ## C14: `unlock_shared` -/

/-- C14: for every state `s` with `shared_count ≥ 1`, `unlock_shared` yields
`shared_count = s.shared_count - 1`; if the new count is not `0`, `exclusive`,
`upgrade` and `exclusive_waiting_blocked` are unchanged; if it is `0` and
`upgrade` was set, `upgrade` becomes false and `exclusive` becomes true, with
`exclusive_waiting_blocked` unchanged; if it is `0` and `upgrade` was not set,
`exclusive_waiting_blocked` becomes false, with `exclusive` and `upgrade`
unchanged. -/
theorem unlock_shared_spec (s : state_data) (hc : 1 ≤ s.shared_count) :
    (unlock_shared s).shared_count = s.shared_count - 1 ∧
    ((unlock_shared s).shared_count ≠ 0 →
      (unlock_shared s).exclusive = s.exclusive ∧
      (unlock_shared s).upgrade = s.upgrade ∧
      (unlock_shared s).exclusive_waiting_blocked = s.exclusive_waiting_blocked) ∧
    ((unlock_shared s).shared_count = 0 → s.upgrade = true →
      (unlock_shared s).upgrade = false ∧
      (unlock_shared s).exclusive = true ∧
      (unlock_shared s).exclusive_waiting_blocked = s.exclusive_waiting_blocked) ∧
    ((unlock_shared s).shared_count = 0 → s.upgrade = false →
      (unlock_shared s).exclusive_waiting_blocked = false ∧
      (unlock_shared s).exclusive = s.exclusive ∧
      (unlock_shared s).upgrade = s.upgrade) := by
  obtain ⟨c, X, U, B⟩ := s
  simp only at hc
  have hd : decr c = c - 1 := decr_of_pos c hc
  by_cases h0 : c - 1 = 0 <;> cases U <;> simp [unlock_shared, hd, h0]

/-- C14, witness: the last reader leaves while the upgrade holder is suspended
inside `unlock_upgrade_and_lock`: the mutex is handed over. -/
theorem unlock_shared_spec_witness :
    (unlock_shared upgrader_suspended.state).shared_count = 1 - 1 ∧
    (unlock_shared upgrader_suspended.state).upgrade = false ∧
    (unlock_shared upgrader_suspended.state).exclusive = true :=
  have h := unlock_shared_spec upgrader_suspended.state (by decide)
  ⟨h.1, (h.2.2.1 (by decide) (by decide)).1, (h.2.2.1 (by decide) (by decide)).2.1⟩

/-! ## C15: `unlock_upgrade_and_lock` -/

/-- C15: `unlock_upgrade_and_lock` called in a state `s` with `upgrade` set,
`shared_count ≥ 1` and `exclusive` not set first takes 1 off `shared_count`.
Its loop is left exactly from a state with `shared_count = 0`, and then
`upgrade` is cleared, `exclusive` is set and `shared_count` is `0`.  With
`s.shared_count = 1` it returns without waiting; with `s.shared_count > 1` it
waits, in a state with `upgrade` still set, `exclusive` not set and
`shared_count = s.shared_count - 1`.  When the last other reader has handed the
mutex over (`shared_count = 0`, `exclusive` set, `upgrade` cleared), the woken
thread returns and leaves that state as it is. -/
theorem unlock_upgrade_and_lock_spec (s : state_data) (hu : s.upgrade = true)
    (hc : 1 ≤ s.shared_count) (hx : s.exclusive = false) :
    (unlock_upgrade_and_lock s).state.shared_count = s.shared_count - 1 ∧
    (∀ r : state_data,
      (unlock_upgrade_and_lock_loop r).proceeds = true ↔ r.shared_count = 0) ∧
    (∀ r : state_data, (unlock_upgrade_and_lock_loop r).proceeds = true →
      (unlock_upgrade_and_lock_loop r).state.upgrade = false ∧
      (unlock_upgrade_and_lock_loop r).state.exclusive = true ∧
      (unlock_upgrade_and_lock_loop r).state.shared_count = 0) ∧
    ((unlock_upgrade_and_lock s).proceeds = true →
      (unlock_upgrade_and_lock s).state.upgrade = false ∧
      (unlock_upgrade_and_lock s).state.exclusive = true ∧
      (unlock_upgrade_and_lock s).state.shared_count = 0) ∧
    (s.shared_count = 1 →
      unlock_upgrade_and_lock s = .acquired
        { s with shared_count := 0, upgrade := false, exclusive := true }) ∧
    (1 < s.shared_count →
      unlock_upgrade_and_lock s = .suspended
        { s with shared_count := s.shared_count - 1 } ∧
      (unlock_upgrade_and_lock s).state.upgrade = true ∧
      (unlock_upgrade_and_lock s).state.exclusive = false) ∧
    (∀ r : state_data, r.shared_count = 0 → r.exclusive = true → r.upgrade = false →
      unlock_upgrade_and_lock_loop r = .acquired r) := by
  obtain ⟨c, X, U, B⟩ := s
  simp only at hu hc hx
  subst hu hx
  have hd : decr c = c - 1 := decr_of_pos c hc
  refine ⟨?_, ?_, ?_, ?_, ?_, ?_, ?_⟩
  · simp only [unlock_upgrade_and_lock, unlock_upgrade_and_lock_loop, hd]
    split <;> simp [blocking.state]
  · intro r
    simp only [unlock_upgrade_and_lock_loop]
    split <;> simp_all [blocking.proceeds]
  · intro r
    simp only [unlock_upgrade_and_lock_loop]
    split <;> simp_all [blocking.proceeds, blocking.state]
  · simp only [unlock_upgrade_and_lock, unlock_upgrade_and_lock_loop, hd]
    split <;> simp_all [blocking.proceeds, blocking.state]
  · intro h1
    simp only at h1
    subst h1
    simp [unlock_upgrade_and_lock, unlock_upgrade_and_lock_loop, decr]
  · intro h1
    simp only at h1
    have : c - 1 ≠ 0 := by omega
    simp [unlock_upgrade_and_lock, unlock_upgrade_and_lock_loop, hd, this, blocking.state]
  · intro r h0 h1 h2
    obtain ⟨rc, rX, rU, rB⟩ := r
    simp only at h0 h1 h2
    subst h0 h1 h2
    simp [unlock_upgrade_and_lock_loop]

/-- C15, witness: the upgrade holder among two readers has to wait, with two
slots left in the counter. -/
theorem unlock_upgrade_and_lock_spec_witness :
    (unlock_upgrade_and_lock upgrade_among_readers).state.shared_count = 3 - 1 ∧
    unlock_upgrade_and_lock upgrade_among_readers = .suspended
      { upgrade_among_readers with shared_count := 3 - 1 } ∧
    unlock_upgrade_and_lock_loop handed_over.state = .acquired handed_over.state :=
  have h := unlock_upgrade_and_lock_spec upgrade_among_readers
    (by decide) (by decide) (by decide)
  ⟨h.1, (h.2.2.2.2.2.1 (by decide)).1,
    h.2.2.2.2.2.2 handed_over.state (by decide) (by decide) (by decide)⟩

/-! ## C16: `unlock_upgrade` -/

/-- C16: for every state `s` with `upgrade` set and `shared_count ≥ 1`,
`unlock_upgrade` yields `upgrade = false` and
`shared_count = s.shared_count - 1` and leaves `exclusive` unchanged;
`exclusive_waiting_blocked` becomes false if the new `shared_count` is `0` and
is unchanged otherwise. -/
theorem unlock_upgrade_spec (s : state_data) (hu : s.upgrade = true)
    (hc : 1 ≤ s.shared_count) :
    (unlock_upgrade s).upgrade = false ∧
    (unlock_upgrade s).shared_count = s.shared_count - 1 ∧
    (unlock_upgrade s).exclusive = s.exclusive ∧
    ((unlock_upgrade s).shared_count = 0 →
      (unlock_upgrade s).exclusive_waiting_blocked = false) ∧
    ((unlock_upgrade s).shared_count ≠ 0 →
      (unlock_upgrade s).exclusive_waiting_blocked = s.exclusive_waiting_blocked) := by
  obtain ⟨c, X, U, B⟩ := s
  simp only at hu hc
  have hd : decr c = c - 1 := decr_of_pos c hc
  by_cases h0 : c - 1 = 0 <;> simp [unlock_upgrade, hd, h0]

/-- C16, witness: the upgrade holder is the last shared holder and a writer is
waiting; `unlock_upgrade` reopens the mutex. -/
theorem unlock_upgrade_spec_witness :
    (unlock_upgrade upgrade_alone_writer_waiting).upgrade = false ∧
    (unlock_upgrade upgrade_alone_writer_waiting).shared_count = 1 - 1 ∧
    (unlock_upgrade upgrade_alone_writer_waiting).exclusive_waiting_blocked = false :=
  have h := unlock_upgrade_spec upgrade_alone_writer_waiting (by decide) (by decide)
  ⟨h.1, h.2.1, h.2.2.2.1 (by decide)⟩

/-! ## C17: giving up exclusive access -/

theorem run_wrapped_writer :
    run system.init (List.replicate UINT_MOD .lock_shared ++ [.try_lock, .unlock_shared])
      = some wrapped_writer := by
  have h1 : run system.init (List.replicate UINT_MOD .lock_shared)
      = some wrapped_readers := by
    rw [run_lock_shared_replicate UINT_MOD system.init rfl rfl (by decide)]
    decide
  rw [run_append, h1]
  decide

/-- C17, as stated, fails where the counter has its largest value: the state
with `exclusive` set and `shared_count = UINT_MAX` is reached by `UINT_MOD`
calls of `lock_shared`, `try_lock` and one `unlock_shared`, a thread holds
exclusive access there, and `unlock_and_lock_shared` and
`unlock_and_lock_upgrade` both give `shared_count = 0`, not `UINT_MAX + 1`. -/
theorem give_up_exclusive_counterexample :
    reachable wrapped_writer ∧
    wrapped_writer.writers = 1 ∧
    wrapped_writer.state = exclusive_full_count ∧
    (unlock_and_lock_shared exclusive_full_count).shared_count = 0 ∧
    (unlock_and_lock_upgrade exclusive_full_count).shared_count = 0 ∧
    ¬ ∀ s : state_data,
        (unlock_and_lock_shared s).shared_count = s.shared_count + 1 ∧
        (unlock_and_lock_upgrade s).shared_count = s.shared_count + 1 := by
  refine ⟨reachable_run _ _ _ reachable.init run_wrapped_writer, rfl, rfl,
    by decide, by decide, fun h => ?_⟩
  have := (h exclusive_full_count).1
  revert this
  decide

/-- C17, amended: in every state `s`, each of `unlock`,
`unlock_and_lock_shared` and `unlock_and_lock_upgrade` clears `exclusive` and
`exclusive_waiting_blocked`; `unlock` leaves `shared_count` and `upgrade`
unchanged; `unlock_and_lock_shared` leaves `upgrade` unchanged and
`unlock_and_lock_upgrade` sets it; both make `shared_count` larger by exactly 1
if it was below `UINT_MAX` and `0` if it was `UINT_MAX`.  From a state with
`exclusive` set that satisfies the invariants of the data model
(`shared_count = 0`, `upgrade` not set) they yield `(0, false, false, false)`,
`(1, false, false, false)` and `(1, false, true, false)`. -/
theorem give_up_exclusive_spec (s : state_data) :
    unlock s = { s with exclusive := false, exclusive_waiting_blocked := false } ∧
    ((unlock_and_lock_shared s).exclusive = false ∧
      (unlock_and_lock_shared s).exclusive_waiting_blocked = false ∧
      (unlock_and_lock_shared s).upgrade = s.upgrade ∧
      (s.shared_count < UINT_MAX →
        (unlock_and_lock_shared s).shared_count = s.shared_count + 1) ∧
      (s.shared_count = UINT_MAX → (unlock_and_lock_shared s).shared_count = 0)) ∧
    ((unlock_and_lock_upgrade s).exclusive = false ∧
      (unlock_and_lock_upgrade s).exclusive_waiting_blocked = false ∧
      (unlock_and_lock_upgrade s).upgrade = true ∧
      (s.shared_count < UINT_MAX →
        (unlock_and_lock_upgrade s).shared_count = s.shared_count + 1) ∧
      (s.shared_count = UINT_MAX → (unlock_and_lock_upgrade s).shared_count = 0)) ∧
    (s.exclusive = true → s.shared_count = 0 → s.upgrade = false →
      unlock s = { shared_count := 0, exclusive := false, upgrade := false,
                   exclusive_waiting_blocked := false } ∧
      unlock_and_lock_shared s =
        { shared_count := 1, exclusive := false, upgrade := false,
          exclusive_waiting_blocked := false } ∧
      unlock_and_lock_upgrade s =
        { shared_count := 1, exclusive := false, upgrade := true,
          exclusive_waiting_blocked := false }) := by
  obtain ⟨c, X, U, B⟩ := s
  refine ⟨rfl, ⟨rfl, rfl, rfl, ?_, ?_⟩, ⟨rfl, rfl, rfl, ?_, ?_⟩, ?_⟩
  · intro h
    simp only at h
    simp only [unlock_and_lock_shared, incr]
    split <;> omega
  · intro h
    simp only at h
    simp [unlock_and_lock_shared, incr, h]
  · intro h
    simp only at h
    simp only [unlock_and_lock_upgrade, incr]
    split <;> omega
  · intro h
    simp only at h
    simp [unlock_and_lock_upgrade, incr, h]
  · intro h1 h2 h3
    simp only at h1 h2 h3
    subst h1 h2 h3
    refine ⟨rfl, ?_, ?_⟩ <;> cases B <;> decide

/-- C17, witness: the mutex is held exclusively while another writer waits. -/
theorem give_up_exclusive_spec_witness :
    unlock held_exclusive_writer_waiting = initial ∧
    unlock_and_lock_shared held_exclusive_writer_waiting = sole_reader ∧
    (unlock_and_lock_upgrade held_exclusive_writer_waiting).shared_count = 0 + 1 :=
  have h := give_up_exclusive_spec held_exclusive_writer_waiting
  ⟨(h.2.2.2 (by decide) (by decide) (by decide)).1,
    (h.2.2.2 (by decide) (by decide) (by decide)).2.1,
    h.2.2.1.2.2.2.1 (by decide)⟩

/-! ## C18: `try_unlock_shared_and_lock` among several readers -/

/-- C18, as stated, fails: with two readers and no flag set,
`try_unlock_shared_and_lock` returns false and the state after the call is the
state before it, `shared_count` included: the function tests
`shared_count == 1`. -/
theorem several_readers_counterexample :
    try_unlock_shared_and_lock two_readers.state = (false, two_readers.state) ∧
    (try_unlock_shared_and_lock two_readers.state).2.shared_count
      = two_readers.state.shared_count ∧
    ¬ ∀ s : state_data, 2 ≤ s.shared_count → s.exclusive = false →
        s.upgrade = false → s.exclusive_waiting_blocked = false →
        (try_unlock_shared_and_lock s).2.shared_count ≠ s.shared_count := by
  refine ⟨by decide, by decide, fun h => ?_⟩
  exact h two_readers.state (by decide) rfl rfl rfl (by decide)

/-- C18, amended: `try_unlock_shared_and_lock` tests `shared_count == 1`; called
in a state with `shared_count ≥ 2` (by a thread holding one of several shared
slots) it returns false and leaves all four fields as they were. -/
theorem several_readers (s : state_data) (hc : 2 ≤ s.shared_count) :
    try_unlock_shared_and_lock s = (false, s) := by
  have h1 : s.shared_count ≠ 1 := by omega
  simp [try_unlock_shared_and_lock, h1]

/-- C18, witness: one upgrade holder among two readers. -/
theorem several_readers_witness :
    try_unlock_shared_and_lock upgrade_among_readers = (false, upgrade_among_readers) :=
  several_readers upgrade_among_readers (by decide)

/-! ## C19: a blocked `lock` closes the door -/

/-- C19: for every state `s` with `shared_count > 0` or `exclusive` set, the
pass of `lock` ends in `wait` and leaves `s` with `exclusive_waiting_blocked`
set and the other three fields unchanged; in that state `try_lock_shared` and
`try_lock_upgrade` return false and change nothing, so `shared_count` is what
it was.  With `shared_count = 0` and `exclusive` not set, `lock` returns with
`exclusive` set and `exclusive_waiting_blocked` as it was. -/
theorem blocked_lock (s : state_data) :
    ((0 < s.shared_count ∨ s.exclusive = true) →
      lock s = .suspended { s with exclusive_waiting_blocked := true } ∧
      (lock s).state.shared_count = s.shared_count ∧
      (lock s).state.exclusive = s.exclusive ∧
      (lock s).state.upgrade = s.upgrade ∧
      (lock s).state.exclusive_waiting_blocked = true ∧
      try_lock_shared (lock s).state = (false, (lock s).state) ∧
      try_lock_upgrade (lock s).state = (false, (lock s).state) ∧
      (try_lock_shared (lock s).state).2.shared_count = s.shared_count ∧
      (try_lock_upgrade (lock s).state).2.shared_count = s.shared_count) ∧
    (s.shared_count = 0 → s.exclusive = false →
      lock s = .acquired { s with exclusive := true } ∧
      (lock s).state.exclusive_waiting_blocked = s.exclusive_waiting_blocked) := by
  obtain ⟨c, X, U, B⟩ := s
  constructor
  · intro h
    simp only at h
    have hl : lock ⟨c, X, U, B⟩ = .suspended ⟨c, X, U, true⟩ := by
      simp only [lock]
      rcases h with h | h
      · have : c ≠ 0 := by omega
        simp [this]
      · simp [h]
    rw [hl]
    simp [blocking.state, try_lock_shared, try_lock_upgrade]
  · intro h0 hx
    simp only at h0 hx
    subst h0 hx
    simp [lock, blocking.state]

/-- C19, witness: a thread calls `lock` while two readers hold the mutex. -/
theorem blocked_lock_witness :
    lock two_readers.state = .suspended two_readers_writer_waiting.state ∧
    try_lock_shared two_readers_writer_waiting.state
      = (false, two_readers_writer_waiting.state) ∧
    lock initial = .acquired held_exclusive :=
  have h := (blocked_lock two_readers.state).1 (Or.inl (by decide))
  have hl : (lock two_readers.state).state = two_readers_writer_waiting.state := by decide
  ⟨h.1, hl ▸ h.2.2.2.2.2.1, ((blocked_lock initial).2 rfl rfl).1⟩

/-! ## C20: a free mutex is open -/

/-- Every event keeps `free_unblocked`. -/
theorem free_unblocked_step (g t : system) (e : event) (hs : step g e = some t)
    (hf : free_unblocked g.state) : free_unblocked t.state := by
  obtain ⟨⟨c, X, U, B⟩, r, u, x, w, lw, sw, uw⟩ := g
  unfold free_unblocked at hf ⊢
  simp only at hf
  cases e <;> cases X <;> cases U <;> cases B <;>
    simp [step, lock_shared, try_lock_shared, unlock_shared, lock, try_lock, unlock,
      lock_upgrade, try_lock_upgrade, unlock_upgrade, unlock_upgrade_and_lock,
      unlock_upgrade_and_lock_loop, unlock_and_lock_upgrade, unlock_and_lock_shared,
      try_unlock_shared_and_lock, unlock_upgrade_and_lock_shared] at hs hf ⊢
  all_goals try (obtain ⟨hne, hs⟩ := hs)
  all_goals try split_ifs at hs
  all_goals try simp only [Option.some.injEq, reduceCtorEq] at hs
  all_goals try subst hs
  all_goals try simp_all

/-- With at most `UINT_MAX` slots in use, a set `upgrade` flag comes with a
non-zero counter. -/
theorem upgrade_slot_aux (g : system) (h : reachable_within UINT_MAX g)
    (hu : g.state.upgrade = true) : 1 ≤ g.state.shared_count := by
  obtain ⟨_, h1, _, _, _, h5, _, _, h8⟩ := consistent_of_reachable_within g h
  rcases h5.mp hu with hup | ⟨hw, hx⟩
  · omega
  · have := h8 hw hx
    omega

theorem free_unblocked_of_reachable (g : system) (h : reachable g) :
    free_unblocked g.state := by
  induction h with
  | init => intro _ _; rfl
  | step g t e _ hs ih => exact free_unblocked_step g t e hs ih

/-- C20, as stated, fails: after `lock_upgrade` and `UINT_MAX` calls of
`lock_shared` the reachable state has `shared_count = 0` and `exclusive` not
set, but `upgrade` is set and `try_lock_upgrade` returns false. -/
theorem free_lock_counterexample :
    reachable wrapped ∧
    wrapped.state.shared_count = 0 ∧
    wrapped.state.exclusive = false ∧
    wrapped.state.upgrade = true ∧
    (try_lock_upgrade wrapped.state).1 = false ∧
    ¬ ∀ g : system, reachable g → g.state.shared_count = 0 → g.state.exclusive = false →
        g.state.upgrade = false ∧ (try_lock_upgrade g.state).1 = true := by
  refine ⟨reachable_wrapped, rfl, rfl, rfl, by decide, fun h => ?_⟩
  have := (h wrapped reachable_wrapped rfl rfl).1
  revert this
  decide

/-- C20, amended: in every state reachable from the initial state with
`shared_count = 0` and `exclusive` not set, `exclusive_waiting_blocked` is not
set, and `try_lock_shared` and `try_lock` return true; if the state is reached
by a run in which at most `UINT_MAX` shared slots are in use at any time,
`upgrade` is not set either and `try_lock_upgrade` returns true. -/
theorem free_lock (g : system) (hc : g.state.shared_count = 0)
    (hx : g.state.exclusive = false) :
    (reachable g →
      g.state.exclusive_waiting_blocked = false ∧
      (try_lock_shared g.state).1 = true ∧
      (try_lock g.state).1 = true) ∧
    (reachable_within UINT_MAX g →
      g.state.exclusive_waiting_blocked = false ∧
      g.state.upgrade = false ∧
      (try_lock_shared g.state).1 = true ∧
      (try_lock_upgrade g.state).1 = true ∧
      (try_lock g.state).1 = true) := by
  have key : reachable g →
      g.state.exclusive_waiting_blocked = false ∧
      (try_lock_shared g.state).1 = true ∧
      (try_lock g.state).1 = true := by
    intro h
    have hb := free_unblocked_of_reachable g h hc hx
    simp [try_lock_shared, try_lock, hb, hx, hc]
  refine ⟨key, fun h => ?_⟩
  obtain ⟨hb, hs, hl⟩ := key (reachable_of_within UINT_MAX g h)
  have hu : g.state.upgrade = false := by
    cases hup : g.state.upgrade with
    | false => rfl
    | true =>
      have := upgrade_slot_aux g h hup
      omega
  refine ⟨hb, hu, hs, ?_, hl⟩
  simp [try_lock_upgrade, hb, hx, hu]

/-- C20, witness: a writer has released the mutex while another thread is
still suspended inside `lock`; the mutex is free and open. -/
theorem free_lock_witness :
    writer_passed_over.state.exclusive_waiting_blocked = false ∧
    writer_passed_over.state.upgrade = false ∧
    (try_lock_shared writer_passed_over.state).1 = true ∧
    (try_lock_upgrade writer_passed_over.state).1 = true ∧
    (try_lock writer_passed_over.state).1 = true :=
  (free_lock writer_passed_over (by decide) (by decide)).2
    (reachable_within_run UINT_MAX system.init writer_passed_over
      [.try_lock, .lock, .unlock] reachable_within.init (by decide))

/-! ## C21: a reader comes and goes -/

theorem decr_incr (c : Nat) : decr (incr c) = c := by
  unfold decr incr
  by_cases h : c = UINT_MAX
  · simp [h]
  · simp [h]

theorem incr_eq_zero (c : Nat) : incr c = 0 ↔ c = UINT_MAX := by
  unfold incr
  by_cases h : c = UINT_MAX <;> simp [h]

/-- C21: for every state `s` that satisfies the invariants of the data model
and in which `lock_shared` returns without waiting (`exclusive` and
`exclusive_waiting_blocked` not set), `unlock_shared` applied to the state
`lock_shared` produces is `s` again, in all four fields.  Without the
invariants this fails: from `shared_count = 0` with `upgrade` set the pair ends
with `exclusive` set. -/
theorem shared_round_trip (s : state_data) (hi : data_model_invariants s)
    (hx : s.exclusive = false) (hb : s.exclusive_waiting_blocked = false) :
    (lock_shared s).proceeds = true ∧
    unlock_shared (lock_shared s).state = s ∧
    (lock_shared upgrade_without_slot).proceeds = true ∧
    (unlock_shared (lock_shared upgrade_without_slot).state).exclusive = true := by
  obtain ⟨c, X, U, B⟩ := s
  simp only at hx hb
  subst hx hb
  have hu : U = true → 1 ≤ c := hi.2
  refine ⟨by simp [lock_shared, blocking.proceeds], ?_, by decide, by decide⟩
  simp only [lock_shared, Bool.or_self, Bool.false_eq_true, ↓reduceIte, blocking.state,
    unlock_shared, decr_incr, beq_iff_eq]
  by_cases h0 : c = 0
  · subst h0
    cases U
    · simp
    · have := hu rfl
      omega
  · simp [h0]

/-- C21, witness: a third reader joins two readers and leaves again. -/
theorem shared_round_trip_witness :
    (lock_shared two_readers.state).proceeds = true ∧
    unlock_shared (lock_shared two_readers.state).state = two_readers.state :=
  have h := shared_round_trip two_readers.state
    ⟨fun h => absurd h (by decide), fun h => absurd h (by decide)⟩ rfl rfl
  ⟨h.1, h.2.1⟩

/-! ## C22: upgrade access given back at once -/

/-- C22: for every state `s` in which `lock_upgrade` returns without waiting
(`exclusive`, `exclusive_waiting_blocked` and `upgrade` not set), `lock_upgrade`
followed by `unlock_upgrade_and_lock_shared` yields exactly the state that
`lock_shared` yields from `s`, and `lock_shared` returns without waiting
too. -/
theorem upgrade_then_downgrade (s : state_data) (hx : s.exclusive = false)
    (hb : s.exclusive_waiting_blocked = false) (hu : s.upgrade = false) :
    (lock_upgrade s).proceeds = true ∧
    (lock_shared s).proceeds = true ∧
    unlock_upgrade_and_lock_shared (lock_upgrade s).state = (lock_shared s).state := by
  obtain ⟨c, X, U, B⟩ := s
  simp only at hx hb hu
  subst hx hb hu
  simp [lock_upgrade, lock_shared, unlock_upgrade_and_lock_shared, blocking.proceeds,
    blocking.state]

/-- C22, witness: two readers hold the mutex. -/
theorem upgrade_then_downgrade_witness :
    (lock_upgrade two_readers.state).proceeds = true ∧
    (lock_shared two_readers.state).proceeds = true ∧
    unlock_upgrade_and_lock_shared (lock_upgrade two_readers.state).state
      = (lock_shared two_readers.state).state :=
  upgrade_then_downgrade two_readers.state rfl rfl rfl

/-! ## C23: the combined conversion and its two steps -/

/-- C23: for every state `s` in which `try_unlock_shared_and_lock` returns
true, `try_lock` called after `unlock_shared` returns true as well, and the
state it produces is the one `try_unlock_shared_and_lock` produces. -/
theorem combined_conversion (s : state_data)
    (h : (try_unlock_shared_and_lock s).1 = true) :
    (try_lock (unlock_shared s)).1 = true ∧
    (try_unlock_shared_and_lock s).2 = (try_lock (unlock_shared s)).2 := by
  obtain ⟨c, X, U, B⟩ := s
  cases X <;> cases U <;> cases B <;> simp [try_unlock_shared_and_lock] at h
  have hc : c = 1 := by
    by_cases hc : c = 1
    · exact hc
    · simp [hc] at h
  subst hc
  decide

/-- C23, witness: the only reader converts its access. -/
theorem combined_conversion_witness :
    (try_lock (unlock_shared sole_reader)).1 = true ∧
    (try_unlock_shared_and_lock sole_reader).2 = (try_lock (unlock_shared sole_reader)).2 :=
  combined_conversion sole_reader (by decide)

/-! ## C24: from exclusive to shared in two steps -/

/-- C24: for every state `s` with `exclusive` set that satisfies the invariants
of the data model, `unlock_and_lock_upgrade` followed by
`unlock_upgrade_and_lock_shared` yields exactly the state that
`unlock_and_lock_shared` yields from `s`. -/
theorem downgrade_in_two_steps (s : state_data) (hi : data_model_invariants s)
    (hx : s.exclusive = true) :
    unlock_upgrade_and_lock_shared (unlock_and_lock_upgrade s)
      = unlock_and_lock_shared s := by
  obtain ⟨c, X, U, B⟩ := s
  have hu : U = false := (hi.1 hx).2
  subst hu
  simp [unlock_upgrade_and_lock_shared, unlock_and_lock_upgrade, unlock_and_lock_shared]

/-- C24, witness: the mutex is held exclusively while another writer waits. -/
theorem downgrade_in_two_steps_witness :
    unlock_upgrade_and_lock_shared (unlock_and_lock_upgrade held_exclusive_writer_waiting)
      = unlock_and_lock_shared held_exclusive_writer_waiting :=
  downgrade_in_two_steps held_exclusive_writer_waiting
    ⟨fun _ => ⟨rfl, rfl⟩, fun h => absurd h (by decide)⟩ rfl

end shared_mutex

namespace task_spawn

/-! ## Arithmetic on `boost::uint64_t` -/

theorem sub64_eq_mod (a b : Nat) (ha : a < U64_MOD) (hb : b < U64_MOD) :
    sub64 a b = (a + U64_MOD - b) % U64_MOD := by
  unfold sub64
  unfold U64_MOD at *
  split <;> omega

theorem add64_eq_mod (a b : Nat) (ha : a < U64_MOD) (hb : b < U64_MOD) :
    add64 a b = (a + b) % U64_MOD := by
  unfold add64
  unfold U64_MOD at *
  split <;> omega

theorem sub64_of_le (a b : Nat) (h : b ≤ a) : sub64 a b = a - b := by
  simp [sub64, h]

theorem mul64_of_lt (a b : Nat) (h : a * b < U64_MOD) : mul64 a b = a * b :=
  Nat.mod_eq_of_lt h

theorem add64_of_lt (a b : Nat) (h : a + b < U64_MOD) : add64 a b = a + b := by
  simp [add64, h]

/-- A sum that fits in 64 bits is what `std::accumulate` computes. -/
theorem foldl_add64 (l : List Nat) (init : Nat) (h : init + l.sum < U64_MOD) :
    l.foldl add64 init = init + l.sum := by
  induction l generalizing init with
  | nil => simp
  | cons a l ih =>
    simp only [List.sum_cons] at h
    simp only [List.foldl_cons, List.sum_cons]
    rw [add64_of_lt init a (by omega), ih (init + a) (by omega)]
    omega

/-! ## The range of one draw -/

/-- In pass `i`, with `k` passes to follow and the remaining delay between
`min_delay * (k + 1)` and `max_delay * (k + 1)`: the range is not empty, lies
inside the range of delays, and every draw from it leaves a remaining delay
between `min_delay * k` and `max_delay * k`; in the last pass the range is the
remaining delay alone. -/
theorem low_high_bounds (m M T n i S k : Nat) (hik : i + (k + 1) = n) (hmM : m ≤ M)
    (hS : S ≤ T) (hlo : m * (k + 1) ≤ T - S) (hhi : T - S ≤ M * (k + 1))
    (hW : M * n < U64_MOD) :
    m ≤ low m M T n i S ∧
    low m M T n i S ≤ high m M T n i S ∧
    high m M T n i S ≤ M ∧
    m * k ≤ T - S - high m M T n i S ∧
    T - S - low m M T n i S ≤ M * k ∧
    high m M T n i S ≤ T - S ∧
    (k = 0 → low m M T n i S = T - S ∧ high m M T n i S = T - S) := by
  have hr : sub64 (sub64 n 1) i = k := by
    rw [sub64_of_le n 1 (by omega), sub64_of_le (n - 1) i (by omega)]
    omega
  have hkn : M * k ≤ M * n := Nat.mul_le_mul_left M (by omega)
  have hmk : m * k ≤ M * k := Nat.mul_le_mul_right k hmM
  have hP : mul64 M k = M * k := mul64_of_lt M k (by omega)
  have hQ : mul64 m k = m * k := mul64_of_lt m k (by omega)
  have hTS : sub64 T S = T - S := sub64_of_le T S hS
  have h1 : m * (k + 1) = m * k + m := Nat.mul_succ m k
  have h2 : M * (k + 1) = M * k + M := Nat.mul_succ M k
  have hk0 : k = 0 → M * k = 0 ∧ m * k = 0 := by
    intro h
    subst h
    simp
  rw [h1] at hlo
  rw [h2] at hhi
  simp only [low, high, hr, hP, hQ, hTS]
  generalize M * k = P at *
  generalize m * k = Q at *
  generalize T - S = A at *
  have hA : sub64 A Q = A - Q := sub64_of_le A Q (by omega)
  rw [hA]
  by_cases hneg : A < P
  · simp only [hneg, decide_True, Bool.true_or, ↓reduceIte]
    split <;> omega
  · have hB : sub64 A P = A - P := sub64_of_le A P (by omega)
    simp only [hneg, decide_False, Bool.false_or, hB, decide_eq_true_eq]
    split <;> split <;> omega

/-! ## The generation loop -/

/-- The loop, entered at pass `i` with `k` passes to make and a remaining delay
between `min_delay * k` and `max_delay * k`, makes these `k` passes without
throwing. -/
theorem payload_loop_spec (m M T n : Nat) (dist : Nat → Nat → Nat → Nat)
    (hmM : m ≤ M) (hW : M * n < U64_MOD) (hT : T < U64_MOD)
    (hd : ∀ i lo hi, lo ≤ hi → lo ≤ dist i lo hi ∧ dist i lo hi ≤ hi)
    (k : Nat) :
    ∀ (i S : Nat) (done : List iteration), i + k = n → S ≤ T →
      m * k ≤ T - S → T - S ≤ M * k →
      ∃ its : List iteration,
        payload_loop m M T n dist k i S done = .ok (done ++ its) ∧
        its.length = k ∧
        (∀ it ∈ its, m ≤ it.low ∧ it.low ≤ it.payload ∧ it.payload ≤ it.high ∧
          it.high ≤ M) ∧
        S + (its.map iteration.payload).sum = T ∧
        (0 < k → ∃ (front : List iteration) (last : iteration),
          its = front ++ [last] ∧ last.low = last.high) := by
  induction k with
  | zero =>
    intro i S done _ hS hlo hhi
    refine ⟨[], by simp [payload_loop], rfl, by simp, ?_, by simp⟩
    simp only [Nat.mul_zero] at hhi
    simp only [List.map_nil, List.sum_nil]
    omega
  | succ k ih =>
    intro i S done hik hS hlo hhi
    obtain ⟨b1, b2, b3, b4, b5, b6, b7⟩ := low_high_bounds m M T n i S k hik hmM hS hlo hhi hW
    obtain ⟨p1, p2⟩ := hd i (low m M T n i S) (high m M T n i S) b2
    generalize hlow : low m M T n i S = lo at *
    generalize hhigh : high m M T n i S = hi at *
    generalize hp : dist i lo hi = p at *
    have hadd : add64 S p = S + p := add64_of_lt S p (by omega)
    obtain ⟨its, e1, e2, e3, e4, e5⟩ :=
      ih (i + 1) (S + p) (done ++ [⟨lo, hi, p⟩]) (by omega) (by omega) (by omega) (by omega)
    refine ⟨⟨lo, hi, p⟩ :: its, ?_, by simp [e2], ?_, ?_, ?_⟩
    · have hn1 : ¬ p < m := by omega
      have hn2 : ¬ p > M := by omega
      simp only [payload_loop, hlow, hhigh, hp, hn1, hn2, ↓reduceIte, hadd]
      rw [e1, List.append_assoc]
      rfl
    · intro it hit
      rcases List.mem_cons.mp hit with h | h
      · subst h
        exact ⟨b1, p1, p2, b3⟩
      · exact e3 it h
    · simp only [List.map_cons, List.sum_cons]
      omega
    · intro _
      by_cases hk : k = 0
      · subst hk
        have : its = [] := List.length_eq_zero.mp e2
        subst this
        refine ⟨[], ⟨lo, hi, p⟩, rfl, ?_⟩
        have := b7 rfl
        simp only
        omega
      · obtain ⟨front, last, f1, f2⟩ := e5 (by omega)
        exact ⟨⟨lo, hi, p⟩ :: front, last, by simp [f1], f2⟩

/-! ## The libraries' instances keep their promises -/

theorem swap_perm (l : List Nat) (i j : Nat) (hi : i < l.length) (hj : j < l.length) :
    (swap l i j).Perm l := by
  rw [List.perm_iff_count]
  intro b
  have hx : l.getD i 0 = l[i] := by simp [hi]
  have hy : l.getD j 0 = l[j] := by simp [hj]
  have hj2 : j < (l.set i l[j]).length := by simpa using hj
  have hmid : (l.set i l[j])[j] = l[j] := by
    rw [List.getElem_set]
    split
    · rfl
    · rfl
  have hle : (if l[i] == b then 1 else 0) ≤ l.count b := by
    have := List.boole_getElem_le_countP (fun a => a == b) l i hi
    simpa [List.count_eq_countP] using this
  unfold swap
  rw [hx, hy, List.count_set _ _ _ _ hj2, hmid, List.count_set _ _ _ _ hi]
  omega

theorem random_shuffle_from_spec (rand : Nat → Nat → Except failure Nat)
    (hrand : ∀ call n, 0 < n → ∃ v, rand call n = .ok v ∧ v < n) (k : Nat) :
    ∀ (i : Nat) (l : List Nat), i + k = l.length →
      ∃ l', random_shuffle_from rand k i l = .ok l' ∧ l'.Perm l := by
  induction k with
  | zero => exact fun i l _ => ⟨l, rfl, List.Perm.refl l⟩
  | succ k ih =>
    intro i l hik
    obtain ⟨j, hj, hlt⟩ := hrand (i - 1) (i + 1) (by omega)
    have hlen : (swap l i j).length = l.length := by simp [swap]
    obtain ⟨l', e1, e2⟩ := ih (i + 1) (swap l i j) (by omega)
    refine ⟨l', ?_, e2.trans (swap_perm l i j (by omega) (by omega))⟩
    simp only [random_shuffle_from, hj]
    exact e1

theorem random_shuffle_conforming : shuffle_conforming random_shuffle := by
  intro rand l hrand
  unfold random_shuffle
  by_cases h : l.length = 0
  · refine ⟨l, ?_, List.Perm.refl l⟩
    simp [h, random_shuffle_from]
  · exact random_shuffle_from_spec rand hrand (l.length - 1) 1 l (by omega)

theorem reserve_largest_conforming : reserve_conforming reserve_largest := by
  intro n h
  simp [reserve_largest, h]

/-- Called with a positive `high`, `shuffler` returns a value below `high`. -/
theorem shuffler_spec (dist : Nat → Nat → Nat → Nat)
    (hd : ∀ i lo hi, lo ≤ hi → lo ≤ dist i lo hi ∧ dist i lo hi ≤ hi)
    (prng high : Nat) (h : 0 < high) :
    ∃ v, shuffler dist prng high = .ok v ∧ v < high := by
  have h0 : ¬ high = 0 := by omega
  have hs : sub64 high 1 = high - 1 := sub64_of_le high 1 h
  refine ⟨dist prng 0 (high - 1), by simp [shuffler, h0, hs], ?_⟩
  have := (hd prng 0 (high - 1) (Nat.zero_le _)).2
  omega

/-! ## C25: the generator never throws its own `logic_error` -/

/-- C25, as stated, fails at `min_delay = 0`, `max_delay = 1`, `total_delay = 1`,
`tasks = 2^61`: the arguments pass the validation of the command line and
`max_delay * tasks` is below `2^64`, but `payloads.reserve(tasks)`, which runs
before the first draw, asks for more elements than any vector of
`boost::uint64_t` can hold and throws `std::length_error`; no payload is
produced. -/
theorem workload_generator_counterexample :
    (0 < 2305843009213693952 ∧ 0 ≤ 1 ∧ 1 ≤ 1 ∧ 0 * 2305843009213693952 ≤ 1 ∧
      1 ≤ 1 * 2305843009213693952 ∧ 1 * 2305843009213693952 < U64_MOD) ∧
    reserve_conforming reserve_largest ∧
    shuffle_conforming random_shuffle ∧
    qthreads_main 0 1 1 2305843009213693952 reserve_largest dist_low random_shuffle
      = .error .length_error ∧
    (∀ (reserve : Nat → Option failure) (dist : Nat → Nat → Nat → Nat)
        (rs : (Nat → Nat → Except failure Nat) → List Nat → Except failure (List Nat)),
      reserve_conforming reserve →
      qthreads_main 0 1 1 2305843009213693952 reserve dist rs = .error .length_error) ∧
    ¬ ∀ (m M T n : Nat) (reserve : Nat → Option failure) (dist : Nat → Nat → Nat → Nat)
        (rs : (Nat → Nat → Except failure Nat) → List Nat → Except failure (List Nat)),
      reserve_conforming reserve → shuffle_conforming rs →
      (∀ i lo hi, lo ≤ hi → lo ≤ dist i lo hi ∧ dist i lo hi ≤ hi) →
      0 < n → m ≤ M → M ≤ T → m * n ≤ T → T ≤ M * n → M * n < U64_MOD →
      ∃ payloads : List Nat,
        qthreads_main m M T n reserve dist rs = .ok payloads ∧ payloads.length = n := by
  have key : ∀ (reserve : Nat → Option failure) (dist : Nat → Nat → Nat → Nat)
      (rs : (Nat → Nat → Except failure Nat) → List Nat → Except failure (List Nat)),
      reserve_conforming reserve →
      qthreads_main 0 1 1 2305843009213693952 reserve dist rs = .error .length_error := by
    intro reserve dist rs hres
    have hr := hres 2305843009213693952 (by decide)
    have c1 : ¬ (2305843009213693952 = 0) := by decide
    have c5 : ¬ (mul64 0 2305843009213693952 > 1) := by decide
    have c6 : ¬ (mul64 1 2305843009213693952 < 1) := by decide
    simp only [qthreads_main, c1, c5, c6, hr, ↓reduceIte, gt_iff_lt, Nat.lt_irrefl,
      Nat.not_lt_zero, Nat.lt_one_iff, Nat.one_ne_zero, Nat.not_succ_le_zero]
  refine ⟨by decide, reserve_largest_conforming, random_shuffle_conforming,
    key _ _ _ reserve_largest_conforming, key, fun h => ?_⟩
  obtain ⟨payloads, hp, -⟩ := h 0 1 1 2305843009213693952 reserve_largest dist_low
    random_shuffle reserve_largest_conforming random_shuffle_conforming
    (fun _ _ _ h => ⟨Nat.le_refl _, h⟩) (by decide) (by decide) (by decide) (by decide)
    (by decide) (by decide)
  rw [key _ _ _ reserve_largest_conforming] at hp
  exact absurd hp (by simp)

/-- C25, amended: for all `min_delay`, `max_delay`, `total_delay`, `tasks` that
pass the validation of the command line (`tasks > 0`,
`min_delay ≤ max_delay ≤ total_delay`,
`min_delay * tasks ≤ total_delay ≤ max_delay * tasks`) with
`max_delay * tasks < 2^64`, for every distribution whose draws lie in the closed
range it is given and every `std::random_shuffle` that keeps its promise:
if `payloads.reserve(tasks)` throws, that exception leaves `qthreads_main`
before the first draw; if it returns, the loop makes `tasks` passes without
throwing, in every pass `low ≤ high` and the payload lies between `low` and
`high` and between `min_delay` and `max_delay`, the payloads add up to
`total_delay`, in the last pass `low = high`, so that the last payload is
`total_delay` less the earlier ones, `shuffler` throws for the argument `0`
only, so that the shuffle returns, and `qthreads_main` passes both payload
checks with a permutation of the payloads drawn. -/
theorem workload_generator (m M T n : Nat) (reserve : Nat → Option failure)
    (dist : Nat → Nat → Nat → Nat)
    (random_shuffle : (Nat → Nat → Except failure Nat) → List Nat →
      Except failure (List Nat))
    (hn : 0 < n) (h1 : m ≤ M) (h2 : M ≤ T) (h3 : m * n ≤ T) (h4 : T ≤ M * n)
    (hW : M * n < U64_MOD)
    (hd : ∀ i lo hi, lo ≤ hi → lo ≤ dist i lo hi ∧ dist i lo hi ≤ hi)
    (hrs : shuffle_conforming random_shuffle) :
    (∀ e, reserve n = some e →
      qthreads_main m M T n reserve dist random_shuffle = .error e) ∧
    (reserve n = none →
      ∃ its : List iteration,
        payload_loop m M T n dist n 0 0 [] = .ok its ∧
        its.length = n ∧
        (∀ it ∈ its, it.low ≤ it.high ∧ it.low ≤ it.payload ∧ it.payload ≤ it.high ∧
          m ≤ it.payload ∧ it.payload ≤ M) ∧
        (its.map iteration.payload).sum = T ∧
        (∃ (front : List iteration) (last : iteration),
          its = front ++ [last] ∧ last.low = last.high ∧
          last.payload = T - (front.map iteration.payload).sum) ∧
        (∀ call high,
          shuffler dist (n + call) high = .error .high_value_zero ↔ high = 0) ∧
        ∃ payloads : List Nat,
          random_shuffle (fun call high => shuffler dist (n + call) high)
            (its.map iteration.payload) = .ok payloads ∧
          payloads.Perm (its.map iteration.payload) ∧
          qthreads_main m M T n reserve dist random_shuffle = .ok payloads ∧
          payloads.length = n ∧
          payloads.sum = T) := by
  have hT : T < U64_MOD := by omega
  have hmn : m * n ≤ M * n := Nat.mul_le_mul_right n h1
  have hm64 : mul64 m n = m * n := mul64_of_lt m n (by omega)
  have hM64 : mul64 M n = M * n := mul64_of_lt M n hW
  have c1 : ¬ n = 0 := by omega
  have c2 : ¬ m > M := by omega
  have c3 : ¬ m > T := by omega
  have c4 : ¬ M > T := by omega
  have c5 : ¬ m * n > T := by omega
  have c6 : ¬ M * n < T := by omega
  constructor
  · intro e he
    simp only [qthreads_main, c1, c2, c3, c4, hm64, hM64, c5, c6, ↓reduceIte, he]
  · intro hres
    obtain ⟨its, e1, e2, e3, e4, e5⟩ :=
      payload_loop_spec m M T n dist h1 hW hT hd n 0 0 [] (by omega) (by omega)
        (by omega) (by omega)
    simp only [List.nil_append, Nat.zero_add] at e1 e4
    obtain ⟨front, last, f1, f2⟩ := e5 hn
    obtain ⟨payloads, hp, hperm⟩ :=
      hrs (fun call high => shuffler dist (n + call) high) (its.map iteration.payload)
        (fun call high h => shuffler_spec dist hd (n + call) high h)
    have hlen : payloads.length = n := by
      rw [hperm.length_eq, List.length_map, e2]
    have hsum : payloads.sum = T := by
      rw [hperm.sum_eq, e4]
    have hfold : payloads.foldl add64 0 = T := by
      rw [foldl_add64 _ 0 (by omega), hsum]
      omega
    refine ⟨its, e1, e2, ?_, e4, ⟨front, last, f1, f2, ?_⟩, ?_,
      payloads, hp, hperm, ?_, hlen, hsum⟩
    · intro it hit
      obtain ⟨a, b, c, d⟩ := e3 it hit
      exact ⟨by omega, b, c, by omega, by omega⟩
    · have := e4
      rw [f1] at this
      simp only [List.map_append, List.map_cons, List.map_nil, List.sum_append,
        List.sum_cons, List.sum_nil] at this
      omega
    · intro call high
      by_cases h : high = 0
      · simp [shuffler, h]
      · obtain ⟨v, hv, -⟩ := shuffler_spec dist hd (n + call) high (by omega)
        rw [hv]
        simp [h]
    · simp only [qthreads_main, c1, c2, c3, c4, hm64, hM64, c5, c6, ↓reduceIte, hres, e1,
        hp, hlen, hfold, ne_eq, not_true_eq_false]

/-- C25, witness: three tasks with delays between 1 and 5 and a total delay of
10, a `reserve` that returns, the distribution that always draws the lowest
value, and the `random_shuffle` of libstdc++. -/
theorem workload_generator_witness :
    ∃ its : List iteration,
      payload_loop 1 5 10 3 dist_low 3 0 0 [] = .ok its ∧
      its.length = 3 ∧
      (∀ it ∈ its, it.low ≤ it.high ∧ it.low ≤ it.payload ∧ it.payload ≤ it.high ∧
        1 ≤ it.payload ∧ it.payload ≤ 5) ∧
      (its.map iteration.payload).sum = 10 ∧
      (∃ (front : List iteration) (last : iteration),
        its = front ++ [last] ∧ last.low = last.high ∧
        last.payload = 10 - (front.map iteration.payload).sum) ∧
      (∀ call high,
        shuffler dist_low (3 + call) high = .error .high_value_zero ↔ high = 0) ∧
      ∃ payloads : List Nat,
        random_shuffle (fun call high => shuffler dist_low (3 + call) high)
          (its.map iteration.payload) = .ok payloads ∧
        payloads.Perm (its.map iteration.payload) ∧
        qthreads_main 1 5 10 3 reserve_always dist_low random_shuffle = .ok payloads ∧
        payloads.length = 3 ∧
        payloads.sum = 10 :=
  (workload_generator 1 5 10 3 reserve_always dist_low random_shuffle (by decide)
    (by decide) (by decide) (by decide) (by decide) (by decide)
    (fun _ _ _ h => ⟨Nat.le_refl _, h⟩) random_shuffle_conforming).2 rfl

/-- The run of the witness, evaluated: the payloads drawn are 1, 4 and 5, the
shuffle calls `shuffler` with 2 and 3 and leaves 5, 1, 4; with a `reserve` that
throws, nothing is drawn. -/
theorem workload_example :
    payload_loop 1 5 10 3 dist_low 3 0 0 [] =
      .ok [⟨1, 5, 1⟩, ⟨4, 5, 4⟩, ⟨5, 5, 5⟩] ∧
    qthreads_main 1 5 10 3 reserve_always dist_low random_shuffle = .ok [5, 1, 4] ∧
    qthreads_main 1 5 10 3 reserve_largest dist_low random_shuffle = .ok [5, 1, 4] ∧
    qthreads_main 1 5 10 3 (fun _ => some .bad_alloc) dist_low random_shuffle
      = .error .bad_alloc ∧
    shuffler dist_low 3 0 = .error .high_value_zero :=
  ⟨rfl, rfl, rfl, rfl, rfl⟩

end task_spawn
